import Mathlib

/-!
Shallow embedding of the timeline-kit repository (Rust) for specification
checking.  Lines of the EDL text export are modelled as `List Char`; Rust
`u8`/`u32`/`usize` scalars are modelled as `Nat` with the overflow bounds the
Rust parsing functions enforce; fallible Rust code returns `Option`/a result
inductive, and `panic!`/`expect` aborts are modelled by a dedicated
`panicked` constructor so that "typed error" and "process crash" stay
distinguishable.  Every definition is translated from the repository sources
(file and line references in the doc comments).
-/

/-! ### Character and string primitives (Rust `str` operations used by the repo) -/

/-- Rust `char::is_whitespace` restricted to the ASCII whitespace that occurs
in the EDL format (space, tab, CR, LF); used by `str::trim`. -/
def isWsChar (c : Char) : Bool :=
  c = ' ' || c = '\t' || c = '\n' || c = '\r'

/-- Rust `str::trim`: strip whitespace from both ends. -/
def trimChars (cs : List Char) : List Char :=
  ((cs.dropWhile isWsChar).reverse.dropWhile isWsChar).reverse

/-- Decimal digit value of a character, `none` if not a digit. -/
def digitVal (c : Char) : Option Nat :=
  if 48 ≤ c.toNat ∧ c.toNat ≤ 57 then some (c.toNat - 48) else none

/-- The character for a decimal digit. -/
def digitChar (d : Nat) : Char := Char.ofNat (48 + d)

/-- Accumulator loop of Rust unsigned-integer `from_str`: consume decimal
digits left to right, failing on a non-digit or when the value would exceed
`bound` (Rust's checked multiply/add against the integer type's maximum). -/
def parseUIntAux (bound : Nat) : List Char → Nat → Option Nat
  | [], acc => some acc
  | c :: rest, acc =>
    match digitVal c with
    | none => none
    | some d =>
      let v := acc * 10 + d
      if v ≤ bound then parseUIntAux bound rest v else none

/-- Rust `u8::from_str` / `u32::from_str`: an optional leading `'+'`, then at
least one decimal digit, value within the type's bounds. -/
def parseUInt (bound : Nat) (cs : List Char) : Option Nat :=
  let cs' := if cs.head? = some '+' then cs.tail else cs
  if cs' = [] then none else parseUIntAux bound cs' 0

/-- Rust `str::parse::<u8>()`. -/
def parseU8 (cs : List Char) : Option Nat := parseUInt 255 cs

/-- Rust `str::parse::<u32>()`. -/
def parseU32 (cs : List Char) : Option Nat := parseUInt 4294967295 cs

/-- Worker for splitting on the timecode delimiters `':'` and `';'`
(Rust `str::split([':', ';'])`). -/
def splitCSAux : List Char → List Char → List (List Char)
  | [], acc => [acc.reverse]
  | c :: r, acc =>
    if c = ':' ∨ c = ';' then acc.reverse :: splitCSAux r [] else splitCSAux r (c :: acc)

/-- Rust `tc_string.split([':', ';'])` from `Timecode::from_str`
(src/src/chrono/timecode.rs:199). -/
def splitCS (cs : List Char) : List (List Char) := splitCSAux cs []

/-- Worker for `findSemi`. -/
def findSemiAux : List Char → Nat → Option Nat
  | [], _ => none
  | c :: r, i => if c = ';' then some i else findSemiAux r (i + 1)

/-- Rust `tc_string.find(";")`: byte index of the first `';'`
(all EDL timecode characters are single-byte, so byte index = char index). -/
def findSemi (cs : List Char) : Option Nat := findSemiAux cs 0

/-- Worker for splitting on `'\t'` (Rust `str::split("\t")`). -/
def splitTabAux : List Char → List Char → List (List Char)
  | [], acc => [acc.reverse]
  | c :: r, acc =>
    if c = '\t' then acc.reverse :: splitTabAux r [] else splitTabAux r (c :: acc)

/-- Rust `line.split("\t")`. -/
def splitTab (cs : List Char) : List (List Char) := splitTabAux cs []

/-- Worker for splitting on the two-character separator `":\t"`
(Rust `line.split(":\t")`, non-overlapping, left to right). -/
def splitColonTabAux : List Char → List Char → List (List Char)
  | [], acc => [acc.reverse]
  | ':' :: '\t' :: r, acc => acc.reverse :: splitColonTabAux r []
  | c :: r, acc => splitColonTabAux r (c :: acc)

/-- Rust `line.split(":\t")` from `EDLParser::parse_edl_field`
(src/src/edl/protools/parser.rs:225). -/
def splitColonTab (cs : List Char) : List (List Char) := splitColonTabAux cs []

/-- Rust `format!("\x7b:0>2\x7d", scalar)` for a `u8` scalar: decimal digits,
left-padded with `'0'` to a minimum width of two.  A `u8` is below 1000, so at
most three digits occur. -/
def pad2 (n : Nat) : List Char :=
  if n < 10 then ['0', digitChar n]
  else if n < 100 then [digitChar (n / 10), digitChar (n % 10)]
  else [digitChar (n / 100), digitChar (n / 10 % 10), digitChar (n % 10)]

/-- Rust `value.strip_suffix(suf).unwrap_or(value)`: remove `suf` if the list
ends with it, otherwise keep the list unchanged. -/
def stripSuffixOr (cs suf : List Char) : List Char :=
  if cs.reverse.take suf.length = suf.reverse then cs.take (cs.length - suf.length) else cs

/-- Rust `haystack.contains(needle)` for lists of characters
(contiguous-substring containment). -/
def containsSeq (hay needle : List Char) : Bool := decide (needle <:+: hay)

/-! ### FrameRate (src/src/format/video_format.rs) -/

/-- `FrameRate` (src/src/format/video_format.rs:9-18): closed enumeration of
session frame rates; the `Bool` payload of `Fps24`/`Fps30`/`Fps60` is the
drop-frame mode flag. -/
inductive FrameRate
  | Fps24 : Bool → FrameRate
  | Fps25 : FrameRate
  | Fps30 : Bool → FrameRate
  | Fps48 : FrameRate
  | Fps50 : FrameRate
  | Fps60 : Bool → FrameRate
  | Fps120 : FrameRate
deriving DecidableEq, Repr

/-- Rust `FrameRate::default()` is `Fps25` (the `#[default]` variant). -/
def FrameRate.default : FrameRate := FrameRate.Fps25

instance : Inhabited FrameRate := ⟨FrameRate.default⟩

/-- `FrameRate::as_float` (src/src/format/video_format.rs:21-32), with the
`f32` literals represented exactly as the decimal rationals written in the
source.  (The nearest `f32` to 23.976 / 29.97 / 59.94 differs from the decimal
value by less than 2⁻¹⁰ and lies strictly between the same two integers, so
every truncation below is unaffected by `f32` rounding.) -/
def FrameRate.as_float : FrameRate → ℚ
  | .Fps24 true => (23976 : ℚ) / 1000
  | .Fps24 false => 24
  | .Fps25 => 25
  | .Fps30 true => (2997 : ℚ) / 100
  | .Fps30 false => 30
  | .Fps48 => 48
  | .Fps50 => 50
  | .Fps60 true => (5994 : ℚ) / 100
  | .Fps60 false => 60
  | .Fps120 => 120

/-- Rust `self.fps.as_float().to_usize().unwrap()` in `Timecode::to_ticks`
(src/src/chrono/timecode.rs:265): `f32 → usize` conversion truncates toward
zero; all rates are positive, so this is the floor. -/
def FrameRate.as_float_to_usize (r : FrameRate) : Nat := (⌊r.as_float⌋).toNat

/-- The integer rate `to_ticks` actually multiplies by: the truncation of the
fractional display rate (23 for 23.976 drop-frame, 29 for 29.97 drop-frame,
59 for 59.94 drop-frame, and the nominal integer for non-drop rates). -/
def FrameRate.rateTrunc : FrameRate → Nat
  | .Fps24 true => 23
  | .Fps24 false => 24
  | .Fps25 => 25
  | .Fps30 true => 29
  | .Fps30 false => 30
  | .Fps48 => 48
  | .Fps50 => 50
  | .Fps60 true => 59
  | .Fps60 false => 60
  | .Fps120 => 120

theorem FrameRate.as_float_to_usize_eq (r : FrameRate) :
    r.as_float_to_usize = r.rateTrunc := by
  cases r with
  | Fps24 b =>
      cases b <;> norm_num [FrameRate.as_float_to_usize, FrameRate.as_float, FrameRate.rateTrunc] <;> decide
  | Fps30 b =>
      cases b <;> norm_num [FrameRate.as_float_to_usize, FrameRate.as_float, FrameRate.rateTrunc] <;> decide
  | Fps60 b =>
      cases b <;> norm_num [FrameRate.as_float_to_usize, FrameRate.as_float, FrameRate.rateTrunc] <;> decide
  | Fps25 => norm_num [FrameRate.as_float_to_usize, FrameRate.as_float, FrameRate.rateTrunc] <;> decide
  | Fps48 => norm_num [FrameRate.as_float_to_usize, FrameRate.as_float, FrameRate.rateTrunc] <;> decide
  | Fps50 => norm_num [FrameRate.as_float_to_usize, FrameRate.as_float, FrameRate.rateTrunc] <;> decide
  | Fps120 => norm_num [FrameRate.as_float_to_usize, FrameRate.as_float, FrameRate.rateTrunc] <;> decide

/-- The drop-frame-capable rates constructed in drop-frame mode: exactly the
patterns `Fps24(true) | Fps30(true) | Fps60(true)` matched by
`Timecode::with_fps` / `Timecode::from_parts`
(src/src/chrono/timecode.rs:162,183). -/
def FrameRate.isDropVariant : FrameRate → Bool
  | .Fps24 true => true
  | .Fps30 true => true
  | .Fps60 true => true
  | _ => false

/-- The nominal integer frame rate named by the specification for `toTicks`
("30 for 29.97 drop-frame, 24 for 23.976, 60 for 59.94"); kept separate from
the source-derived `rateTrunc` so that the spec's formula can be stated
verbatim and compared against the code. -/
def FrameRate.specNominalRate : FrameRate → Nat
  | .Fps24 _ => 24
  | .Fps25 => 25
  | .Fps30 _ => 30
  | .Fps48 => 48
  | .Fps50 => 50
  | .Fps60 _ => 60
  | .Fps120 => 120

/-- `FrameRate` parsing of the exact textual EDL tokens
(`EDLParseField::parse_field`, src/src/format/video_format.rs:34-50). -/
def FrameRate.parse_field (cs : List Char) : Option FrameRate :=
  let t := trimChars cs
  if t = "23.976 Drop Frame".toList then some (.Fps24 true)
  else if t = "24 Frame".toList then some (.Fps24 false)
  else if t = "25 Frame".toList then some .Fps25
  else if t = "29.97 Drop Frame".toList then some (.Fps30 true)
  else if t = "30 Frame".toList then some (.Fps30 false)
  else if t = "48 Frame".toList then some .Fps48
  else if t = "50 Frame".toList then some .Fps50
  else if t = "59.94 Drop Frame".toList then some (.Fps60 true)
  else if t = "60 Frame".toList then some (.Fps60 false)
  else if t = "120 Frame".toList then some .Fps120
  else none

/-! ### Timecode (src/src/chrono/timecode.rs) -/

/-- `TernaryPredicate` (src/src/chrono/timecode.rs:107-111), selector used by
the `TC_CONFIG_TABLE` rows: `ptrue`/`pfalse`/`pother` stand for the source's
`True`/`False`/`Other`. -/
inductive TernaryPredicate
  | ptrue
  | pfalse
  | pother
deriving DecidableEq, Repr

/-- `TC_FLAGS_DROPFRAME = 1 << 0` (src/src/chrono/timecode.rs:91). -/
def TC_FLAGS_DROPFRAME : Nat := 1

/-- `TC_DELIMITER_DROPFRAME_INDEX = ((5 - 2) * (2 + 1)) - 1 = 8`
(src/src/chrono/timecode.rs:89): the byte index at which the drop-frame
`';'` separator must sit. -/
def TC_DELIMITER_DROPFRAME_INDEX : Nat := 8

/-- `TC_SCALAR_ORDER_TABLE = [0, 1, 2, 3, 4]` (src/src/chrono/timecode.rs:92-98). -/
def TC_SCALAR_ORDER_TABLE : List Nat := [0, 1, 2, 3, 4]

/-- `TC_CONFIG_TABLE` (src/src/chrono/timecode.rs:112-118): per-group factor
and rate-application selector `[(3600, True), (60, True), (1, True),
(1, False), (1, Other)]`. -/
def TC_CONFIG_TABLE : List (Nat × TernaryPredicate) :=
  [(3600, .ptrue), (60, .ptrue), (1, .ptrue), (1, .pfalse), (1, .pother)]

/-- `Timecode` (src/src/chrono/timecode.rs:140-144): `data` is the scalar
array `[hours, minutes, seconds, frames, ticks]` (`[u8; 5]`), `fps` the frame
rate, `flags` the `u8` flag bit set. -/
structure Timecode where
  data : List Nat
  fps : FrameRate
  flags : Nat
deriving DecidableEq, Repr

/-- `Timecode::default()` (src/src/chrono/timecode.rs:297-305): all-zero
scalars, default frame rate (`Fps25`), no flags. -/
def Timecode.default : Timecode :=
  { data := List.replicate 5 0, fps := FrameRate.default, flags := 0 }

instance : Inhabited Timecode := ⟨Timecode.default⟩

/-- `Timecode::check_flag` (src/src/chrono/timecode.rs:278-280). -/
def Timecode.check_flag (tc : Timecode) (flag : Nat) : Bool :=
  tc.flags &&& flag = flag

/-- `Timecode::set_flag` (src/src/chrono/timecode.rs:282-284). -/
def Timecode.set_flag (tc : Timecode) (flag : Nat) : Timecode :=
  { tc with flags := tc.flags ||| flag }

/-- `Timecode::with_fps` (src/src/chrono/timecode.rs:154-169): default
scalars, the given rate, and the drop-frame flag exactly when the rate matches
`Fps24(true) | Fps30(true) | Fps60(true)`. -/
def Timecode.with_fps (fps : FrameRate) : Timecode :=
  let tc := { Timecode.default with fps := fps }
  if fps.isDropVariant then tc.set_flag TC_FLAGS_DROPFRAME else tc

/-- `Timecode::from_parts` (src/src/chrono/timecode.rs:171-190): the five
scalar groups are `groups = [hours, minutes, seconds, frames, ticks]`; no
bounds validation is performed (source TODO), and the drop-frame flag is set
exactly as in `with_fps`. -/
def Timecode.from_parts (groups : List Nat) (fps : FrameRate) : Timecode :=
  let tc := { Timecode.default with data := groups, fps := fps }
  if fps.isDropVariant then tc.set_flag TC_FLAGS_DROPFRAME else tc

/-- Accessor `Timecode::hours` (data index 0). -/
def Timecode.hours (tc : Timecode) : Nat := tc.data.getD 0 0

/-- Accessor `Timecode::minutes` (data index 1). -/
def Timecode.minutes (tc : Timecode) : Nat := tc.data.getD 1 0

/-- Accessor `Timecode::seconds` (data index 2). -/
def Timecode.seconds (tc : Timecode) : Nat := tc.data.getD 2 0

/-- Accessor `Timecode::frames` (data index 3). -/
def Timecode.frames (tc : Timecode) : Nat := tc.data.getD 3 0

/-- Accessor `Timecode::ticks` (data index 4). -/
def Timecode.ticks (tc : Timecode) : Nat := tc.data.getD 4 0

/-- `Timecode::to_ticks` (src/src/chrono/timecode.rs:261-272): fold over
`data.iter().zip(TC_SCALAR_ORDER_TABLE)`; groups whose config predicate is
`True` contribute `scalar * factor * fps.as_float().to_usize() * 100`, the
frames group (`False`) contributes `scalar * factor * 100`, the ticks group
(`Other`) contributes `scalar`. -/
def Timecode.to_ticks (tc : Timecode) : Nat :=
  (tc.data.zip TC_SCALAR_ORDER_TABLE).foldl
    (fun acc si =>
      let cfg := TC_CONFIG_TABLE.getD si.2 (1, .pother)
      match cfg.2 with
      | .ptrue => acc + si.1 * cfg.1 * tc.fps.as_float_to_usize * 100
      | .pfalse => acc + si.1 * cfg.1 * 100
      | .pother => acc + si.1) 0

/-- `Timecode::set_frame_rate` (src/src/chrono/timecode.rs:274-276): rebinds
the frame rate only; `data` and `flags` are untouched. -/
def Timecode.set_frame_rate (tc : Timecode) (fps : FrameRate) : Timecode :=
  { tc with fps := fps }

/-- Result of `Timecode::from_str`: `panicked` models the
`.expect("timecode string parts must be a valid TimecodeScalar")` abort,
`error` the `Err(())` returns. -/
inductive FromStrResult
  | panicked
  | error
  | ok : Timecode → FromStrResult
deriving DecidableEq, Repr

/-- `parts.map(parse::<u8>)` forced by `count()`: all groups are parsed before
the group count is inspected, and any failure panics (`none` here). -/
def parseAllU8 : List (List Char) → Option (List Nat)
  | [] => some []
  | p :: ps =>
    match parseU8 p, parseAllU8 ps with
    | some v, some vs => some (v :: vs)
    | _, _ => none

/-- `Timecode::from_str` (src/src/chrono/timecode.rs:192-227):
1. the first `';'`, if any, must sit at byte index 8 (`hh:mm:ss;ff`),
   otherwise `Err` — later `';'` occurrences are not inspected;
2. every `':'`/`';'`-separated group is parsed as `u8`, panicking on failure
   (the parse is forced by `count()` before the group-count check);
3. the group count must be 5, 4 or 2, otherwise `Err`;
4. groups are written into `data` starting at index 0 (hours first,
   regardless of the group count), remaining groups stay 0;
5. the drop-frame flag is set exactly when step 1 found a `';'`. -/
def Timecode.from_str (cs : List Char) (fps : FrameRate) : FromStrResult :=
  let dropCheck : Option Bool :=
    match findSemi cs with
    | none => some false
    | some v => if v = TC_DELIMITER_DROPFRAME_INDEX then some true else none
  match dropCheck with
  | none => FromStrResult.error
  | some isDrop =>
    match parseAllU8 (splitCS cs) with
    | none => FromStrResult.panicked
    | some parts =>
      if parts.length ≠ 5 ∧ parts.length ≠ 4 ∧ parts.length ≠ 2 then FromStrResult.error
      else
        let tc : Timecode :=
          { Timecode.default with
            fps := fps,
            data := (List.range 5).map (fun i => parts.getD i 0) }
        FromStrResult.ok (if isDrop then tc.set_flag TC_FLAGS_DROPFRAME else tc)

/-- `impl Display for Timecode` (src/src/chrono/timecode.rs:307-334): render
the first four groups zero-padded to two digits; the delimiter after group
`i < 3` is `';'` when `i` is the seconds index (2) and the drop-frame flag is
set, else `':'`; no delimiter after the frames group and ticks are never
rendered. -/
def Timecode.display (tc : Timecode) : List Char :=
  ((tc.data.take 4).enum).foldl
    (fun acc p =>
      let delim : List Char :=
        if p.1 < 3 then (if p.1 = 2 ∧ tc.check_flag TC_FLAGS_DROPFRAME then [';'] else [':']) else []
      acc ++ pad2 p.2 ++ delim) []

/-- Projection: the display string of a successfully parsed timecode. -/
def FromStrResult.displayOf : FromStrResult → Option (List Char)
  | .ok tc => some tc.display
  | _ => none

/-- Projection: the scalar data of a successfully parsed timecode. -/
def FromStrResult.dataOf : FromStrResult → Option (List Nat)
  | .ok tc => some tc.data
  | _ => none

/-- Closed form of `Timecode.to_ticks` on the five scalar groups: the fold of
the source evaluates to the linear combination with the truncated integer
rate. -/
theorem Timecode.to_ticks_closed (d0 d1 d2 d3 d4 : Nat) (fps : FrameRate) (flags : Nat) :
    (Timecode.mk [d0, d1, d2, d3, d4] fps flags).to_ticks
      = d0 * 3600 * fps.rateTrunc * 100 + d1 * 60 * fps.rateTrunc * 100
        + d2 * 1 * fps.rateTrunc * 100 + d3 * 1 * 100 + d4 := by
  simp [Timecode.to_ticks, TC_SCALAR_ORDER_TABLE, TC_CONFIG_TABLE,
    FrameRate.as_float_to_usize_eq, List.zip, List.foldl]

/-! ### Claim-side definitions and helper lemmas for `to_ticks` -/

/-- The `toTicks` formula exactly as the specification states it (claim C2):
the spec's nominal integer rate, never a truncated fractional one. -/
def specTicksFormula (tc : Timecode) : Nat :=
  tc.hours * 3600 * tc.fps.specNominalRate * 100
    + tc.minutes * 60 * tc.fps.specNominalRate * 100
    + tc.seconds * tc.fps.specNominalRate * 100
    + tc.frames * 100 + tc.ticks

/-- `from_parts` in explicit record form. -/
theorem Timecode.from_parts_eq (groups : List Nat) (fps : FrameRate) :
    Timecode.from_parts groups fps
      = Timecode.mk groups fps (if fps.isDropVariant then 1 else 0) := by
  cases h : fps.isDropVariant <;>
    simp [Timecode.from_parts, Timecode.default, Timecode.set_flag, TC_FLAGS_DROPFRAME, h]

/-- Every truncated rate is positive. -/
theorem FrameRate.rateTrunc_pos (fps : FrameRate) : 0 < fps.rateTrunc := by
  cases fps <;> first
    | decide
    | (rename_i b; cases b <;> decide)

/-- Strict lexicographic order on the `(hours, minutes, seconds, frames,
ticks)` group tuple, written out as the claims state it. -/
def groupLexLt (a b : Nat × Nat × Nat × Nat × Nat) : Prop :=
  a.1 < b.1
  ∨ (a.1 = b.1 ∧ (a.2.1 < b.2.1
  ∨ (a.2.1 = b.2.1 ∧ (a.2.2.1 < b.2.2.1
  ∨ (a.2.2.1 = b.2.2.1 ∧ (a.2.2.2.1 < b.2.2.2.1
  ∨ (a.2.2.2.1 = b.2.2.2.1 ∧ a.2.2.2.2 < b.2.2.2.2)))))))

instance (a b : Nat × Nat × Nat × Nat × Nat) : Decidable (groupLexLt a b) := by
  unfold groupLexLt; infer_instance

/-- The group ranges the claims call valid, with the spec's nominal integer
rate as the frames bound (claim C3 as stated). -/
def specValidGroups (fps : FrameRate) (g : Nat × Nat × Nat × Nat × Nat) : Prop :=
  g.2.1 ≤ 59 ∧ g.2.2.1 ≤ 59 ∧ g.2.2.2.1 < fps.specNominalRate ∧ g.2.2.2.2 ≤ 99

instance (fps : FrameRate) (g : Nat × Nat × Nat × Nat × Nat) :
    Decidable (specValidGroups fps g) := by
  unfold specValidGroups; infer_instance

/-- One lexicographic refinement step: a strictly smaller high part dominates
any in-range low part. -/
theorem lexStepLt (x1 x2 y1 y2 K : Nat) (hx : x1 < x2) (hy : y1 < K) :
    x1 * K + y1 < x2 * K + y2 := by
  have h1 : x1 * K + y1 < (x1 + 1) * K := by
    have : (x1 + 1) * K = x1 * K + K := by ring
    omega
  have h2 : (x1 + 1) * K ≤ x2 * K := Nat.mul_le_mul_right K hx
  omega

/-- Horner form of the tick key. -/
theorem ticksHorner (h m s f t r : Nat) :
    h * 3600 * r * 100 + m * 60 * r * 100 + s * 1 * r * 100 + f * 1 * 100 + t
      = (((h * 60 + m) * 60 + s) * r + f) * 100 + t := by ring

/-- Lexicographically ordered in-range group tuples have strictly ordered tick
keys (with the truncated integer rate `r` as the frames bound). -/
theorem tickKeyMono (r : Nat)
    (h1 m1 s1 f1 t1 h2 m2 s2 f2 t2 : Nat)
    (hm1 : m1 ≤ 59) (hs1 : s1 ≤ 59) (hf1 : f1 < r) (ht1 : t1 ≤ 99)
    (hlex : groupLexLt (h1, m1, s1, f1, t1) (h2, m2, s2, f2, t2)) :
    (((h1 * 60 + m1) * 60 + s1) * r + f1) * 100 + t1
      < (((h2 * 60 + m2) * 60 + s2) * r + f2) * 100 + t2 := by
  unfold groupLexLt at hlex
  simp only at hlex
  rcases hlex with hh | ⟨hh, hm | ⟨hm, hs | ⟨hs, hf | ⟨hf, ht⟩⟩⟩⟩
  · have hz : h1 * 60 + m1 < h2 * 60 + m2 := lexStepLt _ _ _ _ 60 hh (by omega)
    have hy : (h1 * 60 + m1) * 60 + s1 < (h2 * 60 + m2) * 60 + s2 :=
      lexStepLt _ _ _ _ 60 hz (by omega)
    have hx : ((h1 * 60 + m1) * 60 + s1) * r + f1 < ((h2 * 60 + m2) * 60 + s2) * r + f2 :=
      lexStepLt _ _ _ _ r hy hf1
    exact lexStepLt _ _ _ _ 100 hx (by omega)
  · subst hh
    have hy : (h1 * 60 + m1) * 60 + s1 < (h1 * 60 + m2) * 60 + s2 :=
      lexStepLt _ _ _ _ 60 (by omega) (by omega)
    have hx : ((h1 * 60 + m1) * 60 + s1) * r + f1 < ((h1 * 60 + m2) * 60 + s2) * r + f2 :=
      lexStepLt _ _ _ _ r hy hf1
    exact lexStepLt _ _ _ _ 100 hx (by omega)
  · subst hh; subst hm
    have hx : ((h1 * 60 + m1) * 60 + s1) * r + f1 < ((h1 * 60 + m1) * 60 + s2) * r + f2 :=
      lexStepLt _ _ _ _ r (by omega) hf1
    exact lexStepLt _ _ _ _ 100 hx (by omega)
  · subst hh; subst hm; subst hs
    exact lexStepLt _ _ _ _ 100 (by omega) (by omega)
  · subst hh; subst hm; subst hs; subst hf
    omega

/-! ### Claim C2 (to_ticks rate) -/

/-- C2 counterexample: at 29.97 drop-frame the code multiplies by the
truncated rate 29, not the nominal 30 the claim states: one second converts
to 2900 ticks while the claim's formula yields 3000. -/
theorem C2_counterexample :
    (Timecode.from_parts [0, 0, 1, 0, 0] (FrameRate.Fps30 true)).to_ticks = 2900
    ∧ specTicksFormula (Timecode.from_parts [0, 0, 1, 0, 0] (FrameRate.Fps30 true)) = 3000
    ∧ ¬ ((Timecode.from_parts [0, 0, 1, 0, 0] (FrameRate.Fps30 true)).to_ticks
          = specTicksFormula (Timecode.from_parts [0, 0, 1, 0, 0] (FrameRate.Fps30 true))) := by
  refine ⟨?_, by decide, ?_⟩
  · rw [Timecode.from_parts_eq, Timecode.to_ticks_closed]; decide
  · rw [Timecode.from_parts_eq, Timecode.to_ticks_closed]; decide

/-- C2 (amended): for every `Timecode`, `to_ticks` equals
`hours*3600*rate*100 + minutes*60*rate*100 + seconds*rate*100 + frames*100 +
ticks` where `rate` is the truncation of the frame rate's fractional display
value (`as_float().to_usize()`): 29 for 29.97 drop-frame, 23 for 23.976
drop-frame, 59 for 59.94 drop-frame, and the nominal integer for non-drop
rates. -/
theorem C2_to_ticks_truncated_rate (d0 d1 d2 d3 d4 : Nat) (fps : FrameRate) (flags : Nat) :
    (Timecode.mk [d0, d1, d2, d3, d4] fps flags).to_ticks
      = d0 * 3600 * fps.rateTrunc * 100 + d1 * 60 * fps.rateTrunc * 100
        + d2 * fps.rateTrunc * 100 + d3 * 100 + d4
    ∧ FrameRate.rateTrunc (FrameRate.Fps30 true) = 29
    ∧ FrameRate.rateTrunc (FrameRate.Fps24 true) = 23
    ∧ FrameRate.rateTrunc (FrameRate.Fps60 true) = 59
    ∧ fps.as_float_to_usize = fps.rateTrunc := by
  refine ⟨?_, by decide, by decide, by decide, FrameRate.as_float_to_usize_eq fps⟩
  rw [Timecode.to_ticks_closed]; ring

/-! ### Claim C3 (to_ticks monotonicity) -/

/-- C3 counterexample: with the claim's frame bound (frames below the nominal
integer rate 30 at 29.97 drop-frame), the tuple (0,0,0,29,99) is
lexicographically below (0,0,1,0,0) and both are valid per the claim, yet its
tick value 2999 is not below 2900 — because a second is worth only 29 frames
of 100 ticks in the code. -/
theorem C3_counterexample :
    specValidGroups (FrameRate.Fps30 true) (0, 0, 0, 29, 99)
    ∧ specValidGroups (FrameRate.Fps30 true) (0, 0, 1, 0, 0)
    ∧ groupLexLt (0, 0, 0, 29, 99) (0, 0, 1, 0, 0)
    ∧ ¬ ((Timecode.from_parts [0, 0, 0, 29, 99] (FrameRate.Fps30 true)).to_ticks
          < (Timecode.from_parts [0, 0, 1, 0, 0] (FrameRate.Fps30 true)).to_ticks) := by
  refine ⟨by decide, by decide, by decide, ?_⟩
  rw [Timecode.from_parts_eq, Timecode.from_parts_eq,
    Timecode.to_ticks_closed, Timecode.to_ticks_closed]
  decide

/-- C3 (amended): for a fixed frame rate, `to_ticks` is strictly monotonic in
the lexicographic order of the group tuple when minutes/seconds are 0–59,
ticks 0–99, and frames are below the truncated integer rate
(`as_float().to_usize()`, e.g. 29 at 29.97 drop-frame) — the bound the code's
arithmetic actually respects. -/
theorem C3_to_ticks_lex_monotonic (fps : FrameRate)
    (h1 m1 s1 f1 t1 h2 m2 s2 f2 t2 flags1 flags2 : Nat)
    (hm1 : m1 ≤ 59) (hs1 : s1 ≤ 59) (hf1 : f1 < fps.rateTrunc) (ht1 : t1 ≤ 99)
    (_hm2 : m2 ≤ 59) (_hs2 : s2 ≤ 59) (_hf2 : f2 < fps.rateTrunc) (_ht2 : t2 ≤ 99)
    (hlex : groupLexLt (h1, m1, s1, f1, t1) (h2, m2, s2, f2, t2)) :
    (Timecode.mk [h1, m1, s1, f1, t1] fps flags1).to_ticks
      < (Timecode.mk [h2, m2, s2, f2, t2] fps flags2).to_ticks := by
  rw [Timecode.to_ticks_closed, Timecode.to_ticks_closed, ticksHorner, ticksHorner]
  exact tickKeyMono _ _ _ _ _ _ _ _ _ _ _ hm1 hs1 hf1 ht1 hlex

/-- C3 witness: the amended monotonicity theorem applied at a concrete pair
of tuples at 25 fps. -/
theorem C3_to_ticks_lex_monotonic_witness :
    groupLexLt (0, 0, 0, 0, 0) (0, 0, 0, 0, 1)
    ∧ (Timecode.mk [0, 0, 0, 0, 0] FrameRate.Fps25 0).to_ticks
        < (Timecode.mk [0, 0, 0, 0, 1] FrameRate.Fps25 0).to_ticks :=
  ⟨by decide,
   C3_to_ticks_lex_monotonic FrameRate.Fps25 0 0 0 0 0 0 0 0 0 1 0 0
     (by decide) (by decide) (by decide) (by decide)
     (by decide) (by decide) (by decide) (by decide) (by decide)⟩

/-- Projection: the drop-frame flag of a successfully parsed timecode. -/
def FromStrResult.flagOf : FromStrResult → Option Bool
  | .ok tc => some (tc.check_flag TC_FLAGS_DROPFRAME)
  | _ => none

/-! ### Claim C4 (from_str error behaviour) -/

/-- C4: contrary to the claim (and to the propagation policy of the spec,
which the `Result` signature of `from_str` evidences), a group that is not a
valid non-negative integer does not produce `MalformedTimecode` — the
`expect` inside the parse loop aborts the process; and a `';'` that is not
immediately before the frames group is rejected only if it is the *first*
`';'` of the string, so `00:00:00;00;00` is accepted. -/
theorem C4_from_str_panics_and_misses_second_semicolon :
    Timecode.from_str ("aa:bb".toList) FrameRate.Fps25 = FromStrResult.panicked
    ∧ Timecode.from_str ("00:00:00;00;00".toList) (FrameRate.Fps30 true)
        = FromStrResult.ok (Timecode.mk [0, 0, 0, 0, 0] (FrameRate.Fps30 true) 1) := by
  exact ⟨by decide, by decide⟩

/-! ### Claim C10 (mm:ss parsing) -/

/-- C10: the two-group shape is accepted, but the enumerate-based fill loop
writes the first textual group into `data[0]` (hours) and the second into
`data[1]` (minutes) — not minutes/seconds as the claim (and the constant name
`TC_TOTAL_GROUPS_MINSEC`) state: `01:02` parses to hours 1, minutes 2,
seconds 0. -/
theorem C10_minsec_lands_in_hours_minutes :
    Timecode.from_str ("01:02".toList) FrameRate.Fps25
      = FromStrResult.ok (Timecode.mk [1, 2, 0, 0, 0] FrameRate.Fps25 0)
    ∧ (Timecode.mk [1, 2, 0, 0, 0] FrameRate.Fps25 0).hours = 1
    ∧ (Timecode.mk [1, 2, 0, 0, 0] FrameRate.Fps25 0).minutes = 2
    ∧ (Timecode.mk [1, 2, 0, 0, 0] FrameRate.Fps25 0).seconds = 0 := by
  exact ⟨by decide, by decide, by decide, by decide⟩

/-! ### Claim C5 (drop-frame flag invariant) -/

/-- C5 counterexample: `set_frame_rate` does not recompute the drop-frame
flag — rebinding a drop-frame timecode to `Fps25` leaves the flag set while
the rate is not drop-capable; and `from_str` derives the flag from the string
alone — parsing `00:00:00:00` at 29.97 drop-frame yields a clear flag on a
drop-frame rate. -/
theorem C5_counterexample :
    ((Timecode.with_fps (FrameRate.Fps30 true)).set_frame_rate FrameRate.Fps25).check_flag
        TC_FLAGS_DROPFRAME = true
    ∧ ((Timecode.with_fps (FrameRate.Fps30 true)).set_frame_rate FrameRate.Fps25).fps
        = FrameRate.Fps25
    ∧ FrameRate.isDropVariant FrameRate.Fps25 = false
    ∧ (Timecode.from_str ("00:00:00:00".toList) (FrameRate.Fps30 true)).flagOf = some false
    ∧ FrameRate.isDropVariant (FrameRate.Fps30 true) = true := by
  exact ⟨by decide, by decide, by decide, by decide, by decide⟩

/-- C5 (amended): `with_fps` and `from_parts` establish the drop-frame flag
exactly when the rate is a drop-capable rate constructed in drop mode;
`set_frame_rate` rebinds only the rate, leaving the flags and the five scalar
groups untouched (it does not recompute the flag); and `from_str` sets the
flag exactly when the input string's first `';'` sits at the drop-frame
position, independent of the supplied rate. -/
theorem C5_flag_discipline :
    (∀ fps : FrameRate,
        (Timecode.with_fps fps).check_flag TC_FLAGS_DROPFRAME = fps.isDropVariant)
    ∧ (∀ (g : List Nat) (fps : FrameRate),
        (Timecode.from_parts g fps).check_flag TC_FLAGS_DROPFRAME = fps.isDropVariant)
    ∧ (∀ (tc : Timecode) (fps : FrameRate),
        (tc.set_frame_rate fps).flags = tc.flags
        ∧ (tc.set_frame_rate fps).data = tc.data
        ∧ (tc.set_frame_rate fps).fps = fps)
    ∧ (∀ (cs : List Char) (fps : FrameRate) (tc : Timecode),
        Timecode.from_str cs fps = FromStrResult.ok tc →
          (tc.check_flag TC_FLAGS_DROPFRAME = true
            ↔ findSemi cs = some TC_DELIMITER_DROPFRAME_INDEX)) := by
  refine ⟨?_, ?_, ?_, ?_⟩
  · intro fps
    cases h : fps.isDropVariant <;>
      simp [Timecode.with_fps, h, Timecode.set_flag, Timecode.check_flag,
        Timecode.default, TC_FLAGS_DROPFRAME]
  · intro g fps
    cases h : fps.isDropVariant <;>
      simp [Timecode.from_parts, h, Timecode.set_flag, Timecode.check_flag,
        Timecode.default, TC_FLAGS_DROPFRAME]
  · intro tc fps
    exact ⟨rfl, rfl, rfl⟩
  · intro cs fps tc h
    unfold Timecode.from_str at h
    cases hf : findSemi cs with
    | none =>
      rw [hf] at h
      simp only at h
      cases hp : parseAllU8 (splitCS cs) with
      | none => rw [hp] at h; exact absurd h (by simp)
      | some parts =>
        rw [hp] at h
        simp only at h
        by_cases hl : parts.length ≠ 5 ∧ parts.length ≠ 4 ∧ parts.length ≠ 2
        · rw [if_pos hl] at h; exact absurd h (by simp)
        · rw [if_neg hl] at h
          simp only [FromStrResult.ok.injEq] at h
          subst h
          simp [Timecode.check_flag, Timecode.default, TC_FLAGS_DROPFRAME]
    | some v =>
      rw [hf] at h
      simp only at h
      by_cases hv : v = TC_DELIMITER_DROPFRAME_INDEX
      · subst hv
        simp only [eq_self_iff_true, if_true] at h
        cases hp : parseAllU8 (splitCS cs) with
        | none => rw [hp] at h; exact absurd h (by simp)
        | some parts =>
          rw [hp] at h
          simp only at h
          by_cases hl : parts.length ≠ 5 ∧ parts.length ≠ 4 ∧ parts.length ≠ 2
          · rw [if_pos hl] at h; exact absurd h (by simp)
          · rw [if_neg hl] at h
            simp only [FromStrResult.ok.injEq] at h
            subst h
            simp [Timecode.check_flag, Timecode.set_flag, Timecode.default, TC_FLAGS_DROPFRAME]
      · rw [if_neg hv] at h
        exact absurd h (by simp)

/-- C5 witness: the amended flag discipline applied to the concrete parse of
a drop-frame string. -/
theorem C5_flag_discipline_witness :
    (Timecode.mk [0, 0, 0, 0, 0] FrameRate.Fps25 1).check_flag TC_FLAGS_DROPFRAME = true
      ↔ findSemi ("00:00:00;00".toList) = some TC_DELIMITER_DROPFRAME_INDEX :=
  C5_flag_discipline.2.2.2 ("00:00:00;00".toList) FrameRate.Fps25
    (Timecode.mk [0, 0, 0, 0, 0] FrameRate.Fps25 1) (by decide)

/-! ### Rendering/parsing helper lemmas for the round-trip claim -/

/-- A digit character carries its digit value. -/
theorem digitVal_digitChar (d : Nat) (hd : d ≤ 9) : digitVal (digitChar d) = some d := by
  interval_cases d <;> decide

/-- A digit character is none of the delimiter characters. -/
theorem digitChar_ne (d : Nat) (hd : d ≤ 9) :
    digitChar d ≠ ':' ∧ digitChar d ≠ ';' ∧ digitChar d ≠ '+' ∧ digitChar d ≠ '\t' := by
  interval_cases d <;> decide

/-- For a two-digit group value, `pad2` renders exactly two characters. -/
theorem pad2_length (n : Nat) (hn : n ≤ 99) : (pad2 n).length = 2 := by
  by_cases h : n < 10
  · simp [pad2, h]
  · unfold pad2
    rw [if_neg h, if_pos (by omega)]
    rfl

/-- Every character of a two-digit `pad2` rendering is a digit character. -/
theorem pad2_chars (n : Nat) (hn : n ≤ 99) :
    ∀ c ∈ pad2 n, ∃ d, d ≤ 9 ∧ c = digitChar d := by
  intro c hc
  by_cases h : n < 10
  · rw [pad2, if_pos h] at hc
    simp only [List.mem_cons, List.mem_singleton, List.not_mem_nil, or_false] at hc
    rcases hc with hc | hc
    · exact ⟨0, by omega, by rw [hc]; rfl⟩
    · exact ⟨n, by omega, hc⟩
  · rw [pad2, if_neg h, if_pos (by omega : n < 100)] at hc
    simp only [List.mem_cons, List.mem_singleton, List.not_mem_nil, or_false] at hc
    rcases hc with hc | hc
    · exact ⟨n / 10, by omega, hc⟩
    · exact ⟨n % 10, by omega, hc⟩

/-- No delimiter occurs inside a `pad2` rendering. -/
theorem pad2_no_delim (n : Nat) (hn : n ≤ 99) :
    ∀ c ∈ pad2 n, c ≠ ':' ∧ c ≠ ';' := by
  intro c hc
  obtain ⟨d, hd, rfl⟩ := pad2_chars n hn c hc
  exact ⟨(digitChar_ne d hd).1, (digitChar_ne d hd).2.1⟩

/-- `parse::<u8>` inverts `pad2` on two-digit group values. -/
theorem parseU8_pad2 (n : Nat) (hn : n ≤ 99) : parseU8 (pad2 n) = some n := by
  have h255 : n ≤ 255 := by omega
  by_cases h : n < 10
  · have hd := digitVal_digitChar n (by omega)
    rw [pad2, if_pos h, parseU8, parseUInt]
    simp only [List.head?, reduceCtorEq, if_false, if_neg (by simp : ¬(['0', digitChar n] = []))]
    show parseUIntAux 255 ('0' :: [digitChar n]) 0 = some n
    rw [parseUIntAux]
    simp only [show digitVal '0' = some 0 from by decide]
    rw [show (0 : Nat) * 10 + 0 = 0 from by omega, if_pos (by omega : (0 : Nat) ≤ 255)]
    rw [parseUIntAux]
    simp only [hd]
    rw [show (0 : Nat) * 10 + n = n from by omega, if_pos h255]
    rfl
  · have h1 : n / 10 ≤ 9 := by omega
    have h2 : n % 10 ≤ 9 := by omega
    have hd1 := digitVal_digitChar (n / 10) h1
    have hd2 := digitVal_digitChar (n % 10) h2
    have hp : pad2 n = [digitChar (n / 10), digitChar (n % 10)] := by
      rw [pad2, if_neg h, if_pos (by omega : n < 100)]
    rw [hp, parseU8, parseUInt]
    have hplus : (([digitChar (n / 10), digitChar (n % 10)].head? = some '+') = False) := by
      simp only [List.head?, Option.some.injEq, eq_iff_iff, iff_false]
      exact (digitChar_ne _ h1).2.2.1
    simp only [hplus, if_false, if_neg (by simp : ¬([digitChar (n / 10), digitChar (n % 10)] = []))]
    rw [parseUIntAux]
    simp only [hd1]
    rw [show (0 : Nat) * 10 + n / 10 = n / 10 from by omega, if_pos (by omega : n / 10 ≤ 255)]
    rw [parseUIntAux]
    simp only [hd2]
    rw [if_pos (by omega : n / 10 * 10 + n % 10 ≤ 255)]
    rw [parseUIntAux]
    congr 1
    omega

/-- Splitting steps over a delimiter-free prefix followed by a delimiter. -/
theorem splitCSAux_append (a : List Char) (d : Char) (r acc : List Char)
    (ha : ∀ c ∈ a, c ≠ ':' ∧ c ≠ ';') (hd : d = ':' ∨ d = ';') :
    splitCSAux (a ++ d :: r) acc = (acc.reverse ++ a) :: splitCSAux r [] := by
  induction a generalizing acc with
  | nil => simp [splitCSAux, hd]
  | cons c a ih =>
    have hc := ha c (List.mem_cons_self c a)
    have : ¬(c = ':' ∨ c = ';') := by
      rintro (h | h)
      · exact hc.1 h
      · exact hc.2 h
    simp only [List.cons_append, splitCSAux, if_neg this, List.append_eq]
    rw [ih (c :: acc) (fun x hx => ha x (List.mem_cons_of_mem c hx))]
    simp

/-- Splitting a delimiter-free list yields a single group. -/
theorem splitCSAux_noDelim (a : List Char) (acc : List Char)
    (ha : ∀ c ∈ a, c ≠ ':' ∧ c ≠ ';') :
    splitCSAux a acc = [acc.reverse ++ a] := by
  induction a generalizing acc with
  | nil => simp [splitCSAux]
  | cons c a ih =>
    have hc := ha c (List.mem_cons_self c a)
    have : ¬(c = ':' ∨ c = ';') := by
      rintro (h | h)
      · exact hc.1 h
      · exact hc.2 h
    simp only [splitCSAux, if_neg this]
    rw [ih (c :: acc) (fun x hx => ha x (List.mem_cons_of_mem c hx))]
    simp

/-- `findSemi` skips a `';'`-free prefix, advancing the index by its length. -/
theorem findSemiAux_append (a b : List Char) (i : Nat) (ha : ∀ c ∈ a, c ≠ ';') :
    findSemiAux (a ++ b) i = findSemiAux b (i + a.length) := by
  induction a generalizing i with
  | nil => simp
  | cons c a ih =>
    have hc := ha c (List.mem_cons_self c a)
    simp only [List.cons_append, findSemiAux, if_neg hc, List.append_eq]
    rw [ih (i + 1) (fun x hx => ha x (List.mem_cons_of_mem c hx))]
    congr 1
    simp
    omega

/-- `findSemi` finds nothing in a `';'`-free list. -/
theorem findSemiAux_none (a : List Char) (i : Nat) (ha : ∀ c ∈ a, c ≠ ';') :
    findSemiAux a i = none := by
  induction a generalizing i with
  | nil => rfl
  | cons c a ih =>
    have hc := ha c (List.mem_cons_self c a)
    simp only [findSemiAux, if_neg hc]
    exact ih (i + 1) (fun x hx => ha x (List.mem_cons_of_mem c hx))

/-- Parsing the rendered full five-group colon form recovers the groups. -/
theorem from_str_five_groups (h m s f t : Nat) (fps : FrameRate)
    (hh : h ≤ 99) (hm : m ≤ 99) (hs : s ≤ 99) (hf : f ≤ 99) (ht : t ≤ 99) :
    Timecode.from_str
        (pad2 h ++ ':' :: (pad2 m ++ ':' :: (pad2 s ++ ':' :: (pad2 f ++ ':' :: pad2 t)))) fps
      = FromStrResult.ok (Timecode.mk [h, m, s, f, t] fps 0) := by
  have e1 := pad2_no_delim h hh
  have e2 := pad2_no_delim m hm
  have e3 := pad2_no_delim s hs
  have e4 := pad2_no_delim f hf
  have e5 := pad2_no_delim t ht
  have hnosemi : ∀ c ∈ pad2 h ++ ':' :: (pad2 m ++ ':' :: (pad2 s ++ ':' :: (pad2 f ++ ':' :: pad2 t))),
      c ≠ ';' := by
    intro c hc
    simp only [List.mem_append, List.mem_cons] at hc
    rcases hc with hc | rfl | hc | rfl | hc | rfl | hc | rfl | hc
    · exact (e1 c hc).2
    · decide
    · exact (e2 c hc).2
    · decide
    · exact (e3 c hc).2
    · decide
    · exact (e4 c hc).2
    · decide
    · exact (e5 c hc).2
  have hfind : findSemi
      (pad2 h ++ ':' :: (pad2 m ++ ':' :: (pad2 s ++ ':' :: (pad2 f ++ ':' :: pad2 t)))) = none :=
    findSemiAux_none _ 0 hnosemi
  have hsplit : splitCS
      (pad2 h ++ ':' :: (pad2 m ++ ':' :: (pad2 s ++ ':' :: (pad2 f ++ ':' :: pad2 t))))
      = [pad2 h, pad2 m, pad2 s, pad2 f, pad2 t] := by
    unfold splitCS
    rw [splitCSAux_append (pad2 h) ':' _ [] e1 (Or.inl rfl),
      splitCSAux_append (pad2 m) ':' _ [] e2 (Or.inl rfl),
      splitCSAux_append (pad2 s) ':' _ [] e3 (Or.inl rfl),
      splitCSAux_append (pad2 f) ':' _ [] e4 (Or.inl rfl),
      splitCSAux_noDelim (pad2 t) [] e5]
    simp
  have hparse : parseAllU8 [pad2 h, pad2 m, pad2 s, pad2 f, pad2 t] = some [h, m, s, f, t] := by
    simp [parseAllU8, parseU8_pad2 h hh, parseU8_pad2 m hm, parseU8_pad2 s hs,
      parseU8_pad2 f hf, parseU8_pad2 t ht]
  unfold Timecode.from_str
  rw [hfind]
  simp only
  rw [hsplit, hparse]
  simp only
  rw [if_neg (by simp)]
  have hr5 : List.range 5 = [0, 1, 2, 3, 4] := by decide
  simp [hr5, Timecode.default]

/-- Parsing the rendered drop-frame four-group form recovers the groups and
sets the drop-frame flag. -/
theorem from_str_drop_groups (h m s f : Nat) (fps : FrameRate)
    (hh : h ≤ 99) (hm : m ≤ 99) (hs : s ≤ 99) (hf : f ≤ 99) :
    Timecode.from_str (pad2 h ++ ':' :: (pad2 m ++ ':' :: (pad2 s ++ ';' :: pad2 f))) fps
      = FromStrResult.ok (Timecode.mk [h, m, s, f, 0] fps 1) := by
  have e1 := pad2_no_delim h hh
  have e2 := pad2_no_delim m hm
  have e3 := pad2_no_delim s hs
  have e4 := pad2_no_delim f hf
  have s1 : ∀ c ∈ pad2 h, c ≠ ';' := fun c hc => (e1 c hc).2
  have s2 : ∀ c ∈ pad2 m, c ≠ ';' := fun c hc => (e2 c hc).2
  have s3 : ∀ c ∈ pad2 s, c ≠ ';' := fun c hc => (e3 c hc).2
  have hfind : findSemi (pad2 h ++ ':' :: (pad2 m ++ ':' :: (pad2 s ++ ';' :: pad2 f)))
      = some TC_DELIMITER_DROPFRAME_INDEX := by
    unfold findSemi
    rw [findSemiAux_append (pad2 h) _ 0 s1, pad2_length h hh]
    simp only [findSemiAux]
    rw [if_neg (by decide : ¬(':' = ';'))]
    rw [findSemiAux_append (pad2 m) _ _ s2, pad2_length m hm]
    simp only [findSemiAux]
    rw [if_neg (by decide : ¬(':' = ';'))]
    rw [findSemiAux_append (pad2 s) _ _ s3, pad2_length s hs]
    simp [findSemiAux, TC_DELIMITER_DROPFRAME_INDEX]
  have hsplit : splitCS (pad2 h ++ ':' :: (pad2 m ++ ':' :: (pad2 s ++ ';' :: pad2 f)))
      = [pad2 h, pad2 m, pad2 s, pad2 f] := by
    unfold splitCS
    rw [splitCSAux_append (pad2 h) ':' _ [] e1 (Or.inl rfl),
      splitCSAux_append (pad2 m) ':' _ [] e2 (Or.inl rfl),
      splitCSAux_append (pad2 s) ';' _ [] e3 (Or.inr rfl),
      splitCSAux_noDelim (pad2 f) [] e4]
    simp
  have hparse : parseAllU8 [pad2 h, pad2 m, pad2 s, pad2 f] = some [h, m, s, f] := by
    simp [parseAllU8, parseU8_pad2 h hh, parseU8_pad2 m hm, parseU8_pad2 s hs, parseU8_pad2 f hf]
  unfold Timecode.from_str
  rw [hfind]
  simp only [eq_self_iff_true, if_true]
  rw [hsplit, hparse]
  simp only
  rw [if_neg (by simp)]
  have hr5 : List.range 5 = [0, 1, 2, 3, 4] := by decide
  simp [hr5, Timecode.default, Timecode.set_flag, TC_FLAGS_DROPFRAME]

/-- `display` on a five-group timecode, in closed form: the first four groups
zero-padded, `';'` before the frames group exactly when the drop-frame flag is
set. -/
theorem Timecode.display_eq (d0 d1 d2 d3 d4 : Nat) (fps : FrameRate) (flags : Nat) :
    (Timecode.mk [d0, d1, d2, d3, d4] fps flags).display
      = pad2 d0 ++ ':' :: (pad2 d1 ++ ':' :: (pad2 d2
          ++ (if (Timecode.mk [d0, d1, d2, d3, d4] fps flags).check_flag TC_FLAGS_DROPFRAME
              then ';' else ':') :: pad2 d3)) := by
  cases hcf : (Timecode.mk [d0, d1, d2, d3, d4] fps flags).check_flag TC_FLAGS_DROPFRAME <;>
    simp [Timecode.display, List.enum, List.enumFrom, hcf]

/-! ### Claim C7 (parse/display round trip) -/

/-- C7: parsing a rendered five-group `hh:mm:ss:ff:tt` string (two-digit
zero-padded groups) at any rate succeeds with a clear drop-frame flag, and its
display reproduces exactly the first four groups with `':'` separators;
parsing a rendered drop-frame `hh:mm:ss;ff` string succeeds with the flag set,
and its display reproduces the string with `';'` before the frames group —
ticks are never rendered, and the separator before the frames group is `';'`
exactly when the drop-frame flag is set. -/
theorem C7_parse_display_roundtrip (h m s f t : Nat) (fps : FrameRate)
    (hh : h ≤ 99) (hm : m ≤ 99) (hs : s ≤ 99) (hf : f ≤ 99) (ht : t ≤ 99) :
    (Timecode.from_str
        (pad2 h ++ ':' :: (pad2 m ++ ':' :: (pad2 s ++ ':' :: (pad2 f ++ ':' :: pad2 t)))) fps
        = FromStrResult.ok (Timecode.mk [h, m, s, f, t] fps 0)
      ∧ (Timecode.mk [h, m, s, f, t] fps 0).check_flag TC_FLAGS_DROPFRAME = false
      ∧ (Timecode.mk [h, m, s, f, t] fps 0).display
          = pad2 h ++ ':' :: (pad2 m ++ ':' :: (pad2 s ++ ':' :: pad2 f)))
    ∧ (Timecode.from_str (pad2 h ++ ':' :: (pad2 m ++ ':' :: (pad2 s ++ ';' :: pad2 f))) fps
        = FromStrResult.ok (Timecode.mk [h, m, s, f, 0] fps 1)
      ∧ (Timecode.mk [h, m, s, f, 0] fps 1).check_flag TC_FLAGS_DROPFRAME = true
      ∧ (Timecode.mk [h, m, s, f, 0] fps 1).display
          = pad2 h ++ ':' :: (pad2 m ++ ':' :: (pad2 s ++ ';' :: pad2 f))) := by
  refine ⟨⟨from_str_five_groups h m s f t fps hh hm hs hf ht, ?_, ?_⟩,
    ⟨from_str_drop_groups h m s f fps hh hm hs hf, ?_, ?_⟩⟩
  · simp [Timecode.check_flag, TC_FLAGS_DROPFRAME]
  · rw [Timecode.display_eq]
    simp [Timecode.check_flag, TC_FLAGS_DROPFRAME]
  · simp [Timecode.check_flag, TC_FLAGS_DROPFRAME]
  · rw [Timecode.display_eq]
    simp [Timecode.check_flag, TC_FLAGS_DROPFRAME]

/-- C7 witness: the round trip at the concrete groups 01:02:03:04:05 and
01:02:03;04 at 25 fps. -/
theorem C7_parse_display_roundtrip_witness :
    ((1 : Nat) ≤ 99)
    ∧ ((Timecode.from_str
        (pad2 1 ++ ':' :: (pad2 2 ++ ':' :: (pad2 3 ++ ':' :: (pad2 4 ++ ':' :: pad2 5))))
        FrameRate.Fps25
        = FromStrResult.ok (Timecode.mk [1, 2, 3, 4, 5] FrameRate.Fps25 0)
      ∧ (Timecode.mk [1, 2, 3, 4, 5] FrameRate.Fps25 0).check_flag TC_FLAGS_DROPFRAME = false
      ∧ (Timecode.mk [1, 2, 3, 4, 5] FrameRate.Fps25 0).display
          = pad2 1 ++ ':' :: (pad2 2 ++ ':' :: (pad2 3 ++ ':' :: pad2 4)))
    ∧ (Timecode.from_str (pad2 1 ++ ':' :: (pad2 2 ++ ':' :: (pad2 3 ++ ';' :: pad2 4)))
        FrameRate.Fps25
        = FromStrResult.ok (Timecode.mk [1, 2, 3, 4, 0] FrameRate.Fps25 1)
      ∧ (Timecode.mk [1, 2, 3, 4, 0] FrameRate.Fps25 1).check_flag TC_FLAGS_DROPFRAME = true
      ∧ (Timecode.mk [1, 2, 3, 4, 0] FrameRate.Fps25 1).display
          = pad2 1 ++ ':' :: (pad2 2 ++ ':' :: (pad2 3 ++ ';' :: pad2 4)))) :=
  ⟨by decide,
   C7_parse_display_roundtrip 1 2 3 4 5 FrameRate.Fps25
     (by decide) (by decide) (by decide) (by decide) (by decide)⟩

/-! ### EDL parser data types (src/src/edl/protools/parser_types.rs and
src/src/edl/protools_edl.rs)

`parser.rs` references `EDLSection::TrackEvent`, `EDLSection::Ignore` and the
three-argument `EDLValue` variants; these exist only in the legacy module
`src/src/edl/protools_edl.rs` (the active `parser_types.rs` is a
mid-refactor subset without them), so the enumeration is embedded with the
variant set and order of protools_edl.rs:18-60, which is the one
`parser.rs`'s code uses. -/

/-- `EDLSection` (src/src/edl/protools_edl.rs:18-30). -/
inductive EDLSection
  | Header
  | PluginsListing
  | OnlineFiles
  | OfflineFiles
  | OnlineClips
  | TrackListing
  | TrackEvent
  | MarkersListing
  | Ignore
deriving DecidableEq, Repr

/-- `EDLSection::section_name` (src/src/edl/protools_edl.rs:33-45): the exact
letter-spaced banner strings. -/
def EDLSection.section_name : EDLSection → List Char
  | .Header => "__header__".toList
  | .PluginsListing => "P L U G - I N S  L I S T I N G".toList
  | .OnlineFiles => "O N L I N E  F I L E S  I N  S E S S I O N".toList
  | .OfflineFiles => "O F F L I N E  F I L E S  I N  S E S S I O N".toList
  | .OnlineClips => "O N L I N E  C L I P S  I N  S E S S I O N".toList
  | .TrackListing => "T R A C K  L I S T I N G".toList
  | .TrackEvent => "__track_event__".toList
  | .MarkersListing => "M A R K E R S  L I S T I N G".toList
  | .Ignore => "__ignore__".toList

/-- `EDLSection::all_variants` (src/src/edl/protools_edl.rs:47-60), in source
order. -/
def EDLSection.all_variants : List EDLSection :=
  [.Header, .PluginsListing, .OnlineFiles, .OfflineFiles, .OnlineClips,
   .TrackListing, .TrackEvent, .MarkersListing, .Ignore]

/-- `EDLField` (src/src/edl/protools/parser_types.rs:113-128). -/
inductive EDLField
  | SessionName
  | SessionSampleRate
  | SessionBitDepth
  | SessionStartTimecode
  | SessionTimecodeFormat
  | SessionNumAudioTracks
  | SessionNumAudioClips
  | SessionNumAudioFiles
  | TrackName
  | TrackComment
  | TrackDelay
  | TrackState
  | Unknown
deriving DecidableEq, Repr

/-- `EDLField::field_name` (src/src/edl/protools/parser_types.rs:131-147). -/
def EDLField.field_name : EDLField → List Char
  | .SessionName => "SESSION NAME".toList
  | .SessionSampleRate => "SAMPLE RATE".toList
  | .SessionBitDepth => "BIT DEPTH".toList
  | .SessionStartTimecode => "SESSION START TIMECODE".toList
  | .SessionTimecodeFormat => "TIMECODE FORMAT".toList
  | .SessionNumAudioTracks => "# OF AUDIO TRACKS".toList
  | .SessionNumAudioClips => "# OF AUDIO CLIPS".toList
  | .SessionNumAudioFiles => "# OF AUDIO FILES".toList
  | .TrackName => "TRACK NAME".toList
  | .TrackComment => "COMMENTS".toList
  | .TrackDelay => "USER DELAY".toList
  | .TrackState => "STATE".toList
  | .Unknown => "__unknown__".toList

/-- `EDLField::all_variants` (src/src/edl/protools/parser_types.rs:149-166),
in source order — the order decides which voidable field an unrecognized
colon line falls back to. -/
def EDLField.all_variants : List EDLField :=
  [.SessionName, .SessionSampleRate, .SessionBitDepth, .SessionStartTimecode,
   .SessionTimecodeFormat, .SessionNumAudioTracks, .SessionNumAudioClips,
   .SessionNumAudioFiles, .TrackName, .TrackComment, .TrackDelay, .TrackState, .Unknown]

/-- `EDLField::is_voidable` (src/src/edl/protools/parser_types.rs:168-177). -/
def EDLField.is_voidable : EDLField → Bool
  | .TrackComment => true
  | .TrackState => true
  | .Unknown => true
  | _ => false

/-- `EDL_HEADER_LINE_SIZE = 8` (src/src/edl/protools/parser_types.rs:10). -/
def EDL_HEADER_LINE_SIZE : Nat := 8

/-- `EDL_SECTION_TERMINATOR_LENGTH = 2` (parser_types.rs:12). -/
def EDL_SECTION_TERMINATOR_LENGTH : Nat := 2

/-- `EDL_FIELD_PARTS_LENGTH = 2` (parser_types.rs:13). -/
def EDL_FIELD_PARTS_LENGTH : Nat := 2

/-- `EDL_TRACK_EVENT_VALID_COLUMN_WIDTHS = [2, 6, 7, 8]` (parser_types.rs:16). -/
def EDL_TRACK_EVENT_VALID_COLUMN_WIDTHS : List Nat := [2, 6, 7, 8]

/-- `EDLPARSER_MASK_SECTION_PLUGINSLISTING = 0b00000001` (parser_types.rs:17). -/
def EDLPARSER_MASK_SECTION_PLUGINSLISTING : Nat := 1

/-- The mutable fields of `EDLParser` (src/src/edl/protools/parser.rs:21-31);
the borrowed `file_path` carries no parsing state and is omitted. -/
structure EDLParserState where
  section_flags : Nat
  file_position : Nat
  section_position : Nat
  trailing_new_lines : Nat
  current_section : EDLSection
  previous_section : EDLSection
  section_ended : Bool
deriving DecidableEq, Repr

/-- `EDLParser::get_section_size` (src/src/edl/protools/parser.rs:354-364):
5 for TrackListing when the PluginsListing flag is set, 4 otherwise, 0 for
every other section. -/
def EDLParserState.get_section_size (s : EDLParserState) (sec : EDLSection) : Nat :=
  if sec = .TrackListing then
    if s.section_flags &&& EDLPARSER_MASK_SECTION_PLUGINSLISTING
        = EDLPARSER_MASK_SECTION_PLUGINSLISTING
    then 5 else 4
  else 0

/-- `EDLParser::is_valid_event_table_column_width`
(src/src/edl/protools/parser.rs:366-372). -/
def is_valid_event_table_column_width (w : Nat) : Bool :=
  EDL_TRACK_EVENT_VALID_COLUMN_WIDTHS.contains w

/-- `EDLParser::enable_section` (src/src/edl/protools/parser.rs:340-345):
only PluginsListing raises a flag. -/
def EDLParserState.enable_section (s : EDLParserState) (sec : EDLSection) : EDLParserState :=
  if sec = .PluginsListing then
    { s with section_flags := s.section_flags ||| EDLPARSER_MASK_SECTION_PLUGINSLISTING }
  else s

/-- The banner loop of `check_section` (src/src/edl/protools/parser.rs:170-177):
first variant whose `section_name` equals the line. -/
def bannerLookup (line : List Char) : Option EDLSection :=
  EDLSection.all_variants.find? (fun v => decide (v.section_name = line))

/-- `EDLParser::check_section` (src/src/edl/protools/parser.rs:152-222).
Returns the state (with the `enable_section` side effect applied on a banner
line) and the `(section, skip, reset)` decision; `none` models the Rust
`None` (blank line or no rule matched).  The Rust fall-through after the
TrackEvent block can only reach `None` (its `MarkersListing` test is
unreachable there), embedded accordingly. -/
def EDLParserState.check_section (s : EDLParserState) (line : List Char) :
    EDLParserState × Option (EDLSection × Bool × Bool) :=
  if line = [] then (s, none)
  else if s.file_position < EDL_HEADER_LINE_SIZE then (s, some (.Header, false, false))
  else
    match bannerLookup line with
    | some sec => (s.enable_section sec, some (sec, true, true))
    | none =>
      if s.section_ended then (s, some (s.current_section, true, false))
      else if s.current_section = .OnlineFiles then (s, some (.OnlineFiles, false, false))
      else if s.current_section = .OfflineFiles then (s, some (.OfflineFiles, false, false))
      else if s.current_section = .OnlineClips then (s, some (.OnlineClips, false, false))
      else if s.current_section = .TrackListing then
        if s.section_position ≥ s.get_section_size .TrackListing
        then (s, some (.TrackEvent, false, false))
        else (s, some (.TrackListing, false, false))
      else if s.current_section = .TrackEvent then
        let n := (splitTab line).length
        if n = EDL_FIELD_PARTS_LENGTH then (s, some (.TrackListing, false, true))
        else if is_valid_event_table_column_width n then (s, some (.TrackEvent, false, false))
        else (s, none)
      else if s.current_section = .MarkersListing then (s, some (.MarkersListing, false, false))
      else (s, none)

/-- `EDLValue` (src/src/edl/protools_edl.rs:162-167): a key/value field or a
table row; table cell buffers are the `[""; 8]` arrays, modelled as lists
padded to length 8 with `[]`. -/
inductive EDLValue
  | Field : EDLSection → EDLField → List Char → EDLValue
  | TableHeader : EDLSection → List (List Char) → EDLValue
  | TableEntry : EDLSection → List (List Char) → EDLValue
deriving DecidableEq, Repr

/-- The typed parse errors `parse` returns (`Err(String)` sites in
src/src/edl/protools/parser.rs:241,260,279,298,318,337, modelled as tags). -/
inductive EDLParseError
  | UnrecognizedField
  | OnlineFileColumns
  | OfflineFileColumns
  | OnlineClipColumns
  | TrackEventColumns
  | MarkerColumns
deriving DecidableEq, Repr

/-- Result of a fallible parsing step: `ok`, a typed `Err` propagated by `?`,
or a `panic!`/`expect` abort. -/
inductive POutcome (α : Type)
  | ok : α → POutcome α
  | err : EDLParseError → POutcome α
  | panicked : POutcome α
deriving DecidableEq, Repr

/-- The field-catalog loop of `parse_edl_field`
(src/src/edl/protools/parser.rs:227-239): first field whose name matches a
two-part line, or — for a line whose first part still contains a `':'` — the
first voidable field, else fall through. -/
def parse_edl_field_loop (cur : EDLSection) (parts : List (List Char)) :
    List EDLField → POutcome EDLValue
  | [] => .err .UnrecognizedField
  | f :: rest =>
    if parts.getD 0 [] = f.field_name then
      if parts.length = EDL_FIELD_PARTS_LENGTH then .ok (.Field cur f (parts.getD 1 []))
      else parse_edl_field_loop cur parts rest
    else if (parts.getD 0 []).contains ':' then
      if f.is_voidable then .ok (.Field cur f [])
      else parse_edl_field_loop cur parts rest
    else parse_edl_field_loop cur parts rest

/-- `EDLParser::parse_edl_field` (src/src/edl/protools/parser.rs:224-242). -/
def EDLParserState.parse_edl_field (s : EDLParserState) (line : List Char) : POutcome EDLValue :=
  parse_edl_field_loop s.current_section (splitColonTab line) EDLField.all_variants

/-- Common body of the five `parse_edl_*` table-row extractors
(src/src/edl/protools/parser.rs:244-338), which differ only in the section
whose size bounds the header region and in the error they report: split on
tab, validate the width, trim every cell into the 8-slot buffer, and classify
header/data by `section_position > get_section_size(SECTION) + 1`. -/
def EDLParserState.parse_edl_table_row (s : EDLParserState) (sizeSection : EDLSection)
    (e : EDLParseError) (line : List Char) : POutcome EDLValue :=
  let cells := splitTab line
  if is_valid_event_table_column_width cells.length then
    let buf := cells.map trimChars ++ List.replicate (8 - cells.length) []
    if s.section_position > s.get_section_size sizeSection + 1 then
      .ok (.TableEntry s.current_section buf)
    else
      .ok (.TableHeader s.current_section buf)
  else .err e

/-- `EDLParser::parse_edl_online_file` (src/src/edl/protools/parser.rs:244-261). -/
def EDLParserState.parse_edl_online_file (s : EDLParserState) (line : List Char) :
    POutcome EDLValue :=
  s.parse_edl_table_row .OnlineFiles .OnlineFileColumns line

/-- `EDLParser::parse_edl_offline_file` (src/src/edl/protools/parser.rs:263-280). -/
def EDLParserState.parse_edl_offline_file (s : EDLParserState) (line : List Char) :
    POutcome EDLValue :=
  s.parse_edl_table_row .OfflineFiles .OfflineFileColumns line

/-- `EDLParser::parse_edl_online_clip` (src/src/edl/protools/parser.rs:282-299). -/
def EDLParserState.parse_edl_online_clip (s : EDLParserState) (line : List Char) :
    POutcome EDLValue :=
  s.parse_edl_table_row .OnlineClips .OnlineClipColumns line

/-- `EDLParser::parse_edl_track_event` (src/src/edl/protools/parser.rs:301-319):
note the header/data boundary is taken from the TrackListing section size. -/
def EDLParserState.parse_edl_track_event (s : EDLParserState) (line : List Char) :
    POutcome EDLValue :=
  s.parse_edl_table_row .TrackListing .TrackEventColumns line

/-- `EDLParser::parse_edl_marker_listing` (src/src/edl/protools/parser.rs:321-338). -/
def EDLParserState.parse_edl_marker_listing (s : EDLParserState) (line : List Char) :
    POutcome EDLValue :=
  s.parse_edl_table_row .MarkersListing .MarkerColumns line

/-! ### Session data model (src/src/edl/protools/session_types.rs,
session.rs; the event record and its cell conversion follow
src/src/edl/protools_edl.rs:757-797, the repository's only event-conversion
implementation — `parser.rs:484` calls an `EDLTrackEvent::from` that is
defined nowhere under src/). -/

/-- `EDLMediaFile` (src/src/edl/protools/session_types.rs:17-20). -/
structure EDLMediaFile where
  file_name : List Char
  location : List Char
deriving DecidableEq, Repr

/-- `EDLClip` (src/src/edl/protools/session_types.rs:54-57). -/
structure EDLClip where
  clip_name : List Char
  source_file : List Char
deriving DecidableEq, Repr

/-- `EDLFileList` (src/src/edl/protools/session_types.rs:91-95). -/
structure EDLFileList where
  online_files : List EDLMediaFile
  offline_files : List EDLMediaFile
  online_clips : List EDLClip
deriving DecidableEq, Repr

/-- `EDLUnit` (src/src/edl/protools/session_types.rs:268-277). -/
inductive EDLUnit
  | BarsBeats
  | FeetFrames
  | MinutesSeconds
  | Samples
  | Timecode
deriving DecidableEq, Repr

/-- `EDLUnit::from_str` (src/src/edl/protools/session_types.rs:280-289). -/
def EDLUnit.from_str (cs : List Char) : Option EDLUnit :=
  let t := trimChars cs
  if t = "Bars|Beats".toList then some .BarsBeats
  else if t = "Feet+Frames".toList then some .FeetFrames
  else if t = "Min:Sec".toList then some .MinutesSeconds
  else if t = "Samples".toList then some .Samples
  else if t = "Timecode".toList then some .Timecode
  else none

/-- `EDLMarker` (src/src/edl/protools/session_types.rs:223-230). -/
structure EDLMarker where
  id : Nat
  location : Timecode
  time_reference : Nat
  unit : EDLUnit
  name : List Char
  comment : List Char
deriving DecidableEq, Repr

/-- `EDLEvent` (src/src/edl/protools_edl.rs:757-765): the record `parse`
appends to a track's event list. -/
structure EDLEvent where
  channel : Nat
  event : Nat
  name : List Char
  time_in : Timecode
  time_out : Timecode
  state : Bool
deriving DecidableEq, Repr

/-- `EDLTrack` (src/src/edl/protools/session_types.rs:114-121); `state: ()`
carries no information and is omitted. -/
structure EDLTrack where
  name : List Char
  comment : List Char
  delay : Nat
  plugins : List (List Char)
  events : List EDLEvent
deriving DecidableEq, Repr

/-- `EDLTrack::with_name` (src/src/edl/protools/session_types.rs:124-130). -/
def EDLTrack.with_name (n : List Char) : EDLTrack :=
  { name := n, comment := [], delay := 0, plugins := [], events := [] }

/-- `EDLSession` (src/src/edl/protools/session.rs:21-35).  The session header
fields hold what `fill_session_header` actually stores
(src/src/edl/protools/parser.rs:389-405): a parsed float for the sample rate
and a parsed integer for the bit depth (the enum-typed declarations in
session.rs belong to the unfinished refactor and are never assigned by the
parser). -/
structure EDLSession where
  name : List Char
  sample_rate : ℚ
  bit_depth : Nat
  start_timecode : Timecode
  fps : FrameRate
  num_audio_tracks : Nat
  num_audio_clips : Nat
  num_audio_files : Nat
  files : EDLFileList
  markers : List EDLMarker
  tracks : List EDLTrack
deriving DecidableEq, Repr

/-- `EDLSession::new` (src/src/edl/protools/session.rs:38-54). -/
def EDLSession.new : EDLSession :=
  { name := [], sample_rate := 0, bit_depth := 0,
    start_timecode := Timecode.with_fps FrameRate.default, fps := FrameRate.default,
    num_audio_tracks := 0, num_audio_clips := 0, num_audio_files := 0,
    files := ⟨[], [], []⟩, markers := [], tracks := [] }

/-- Digit-string value with no overflow bound (used by the float model). -/
def digitsVal (cs : List Char) : Option Nat :=
  if cs = [] then none
  else cs.foldl (fun acc c => acc.bind (fun v => (digitVal c).map (fun d => v * 10 + d))) (some 0)

/-- Worker for splitting on `'.'`. -/
def splitDotAux : List Char → List Char → List (List Char)
  | [], acc => [acc.reverse]
  | c :: r, acc =>
    if c = '.' then acc.reverse :: splitDotAux r [] else splitDotAux r (c :: acc)

/-- Split on `'.'`. -/
def splitDot (cs : List Char) : List (List Char) := splitDotAux cs []

/-- Rust `str::parse::<f32>()` restricted to the plain decimal forms the EDL
format carries (optional sign, digits, optional fractional part); the value is
kept exact as a rational, which is faithful for the equality-free uses the
parser makes of it.  No claim depends on this conversion beyond
panic-vs-success. -/
def parseF32q (cs : List Char) : Option ℚ :=
  let neg := cs.head? = some '-'
  let cs1 := if cs.head? = some '-' ∨ cs.head? = some '+' then cs.tail else cs
  let signed : ℚ → ℚ := fun q => if neg then -q else q
  match splitDot cs1 with
  | [a] => (digitsVal a).map (fun n => signed n)
  | [a, b] =>
    if a = [] ∧ b = [] then none
    else
      (if a = [] then some 0 else digitsVal a).bind (fun ip =>
        (if b = [] then some 0 else digitsVal b).map (fun fp =>
          signed ((ip : ℚ) + (fp : ℚ) / ((10 : ℚ) ^ b.length))))
  | _ => none

/-- Rust `value.strip_suffix(suf)` (the `Option`-returning form). -/
def stripSuffixExact (cs suf : List Char) : Option (List Char) :=
  if cs.reverse.take suf.length = suf.reverse then some (cs.take (cs.length - suf.length))
  else none

/-- `EDLParser::select_fps_suffix` (src/src/edl/protools/parser.rs:374-387):
test `" Drop Frame"` before `" Frame"` (containment, not suffix). -/
def select_fps_suffix (cs : List Char) : Option (List Char) :=
  if containsSeq cs " Drop Frame".toList then some " Drop Frame".toList
  else if containsSeq cs " Frame".toList then some " Frame".toList
  else none

/-- Modelled from the spec: `FrameRate::from_str` is called by the parser
(src/src/edl/protools/parser.rs:396) but is defined nowhere under src/ (the
trait method in video_format.rs is `parse_field` and takes the full
suffixed token).  Per spec §4.4, the `" Frame"`/`" Drop Frame"` suffix is
stripped before "delegating to FrameRate parsing", so this maps the bare rate
tokens to their variants, with drop-frame mode for the fractional rates. -/
def FrameRate.from_str (cs : List Char) : Option FrameRate :=
  let t := trimChars cs
  if t = "23.976".toList then some (.Fps24 true)
  else if t = "24".toList then some (.Fps24 false)
  else if t = "25".toList then some .Fps25
  else if t = "29.97".toList then some (.Fps30 true)
  else if t = "30".toList then some (.Fps30 false)
  else if t = "48".toList then some .Fps48
  else if t = "50".toList then some .Fps50
  else if t = "59.94".toList then some (.Fps60 true)
  else if t = "60".toList then some (.Fps60 false)
  else if t = "120".toList then some .Fps120
  else none

/-- `EDLParser::fill_session_header` (src/src/edl/protools/parser.rs:389-405):
every conversion failure is an `expect`/`unwrap` panic; unhandled catalogued
fields only log and change nothing. -/
def fill_session_header (sess : EDLSession) (field : EDLField) (value : List Char) :
    POutcome EDLSession :=
  match field with
  | .SessionName => .ok { sess with name := value }
  | .SessionSampleRate =>
    match parseF32q value with
    | some q => .ok { sess with sample_rate := q }
    | none => .panicked
  | .SessionBitDepth =>
    match parseU32 (stripSuffixOr value "-bit".toList) with
    | some n => .ok { sess with bit_depth := n }
    | none => .panicked
  | .SessionStartTimecode =>
    match Timecode.from_str value FrameRate.default with
    | .ok tc => .ok { sess with start_timecode := tc }
    | _ => .panicked
  | .SessionTimecodeFormat =>
    match select_fps_suffix value with
    | none => .panicked
    | some suf =>
      match stripSuffixExact value suf with
      | none => .panicked
      | some stripped =>
        match FrameRate.from_str stripped with
        | none => .panicked
        | some fps =>
          .ok { sess with fps := fps, start_timecode := sess.start_timecode.set_frame_rate fps }
  | .SessionNumAudioTracks =>
    match parseU32 value with
    | some n => .ok { sess with num_audio_tracks := n }
    | none => .panicked
  | .SessionNumAudioClips =>
    match parseU32 value with
    | some n => .ok { sess with num_audio_clips := n }
    | none => .panicked
  | .SessionNumAudioFiles =>
    match parseU32 value with
    | some n => .ok { sess with num_audio_files := n }
    | none => .panicked
  | _ => .ok sess

/-- `EDLParser::fill_online_files` (src/src/edl/protools/parser.rs:407-421). -/
def fill_online_files (sess : EDLSession) (data : EDLValue) : POutcome EDLSession :=
  match data with
  | .TableHeader _ _ => .ok sess
  | .TableEntry _ cells =>
    .ok { sess with files :=
      { sess.files with online_files :=
          sess.files.online_files ++ [⟨cells.getD 0 [], cells.getD 1 []⟩] } }
  | _ => .panicked

/-- `EDLParser::fill_offline_files` (src/src/edl/protools/parser.rs:423-437). -/
def fill_offline_files (sess : EDLSession) (data : EDLValue) : POutcome EDLSession :=
  match data with
  | .TableHeader _ _ => .ok sess
  | .TableEntry _ cells =>
    .ok { sess with files :=
      { sess.files with offline_files :=
          sess.files.offline_files ++ [⟨cells.getD 0 [], cells.getD 1 []⟩] } }
  | _ => .panicked

/-- `EDLParser::fill_online_clips` (src/src/edl/protools/parser.rs:439-453). -/
def fill_online_clips (sess : EDLSession) (data : EDLValue) : POutcome EDLSession :=
  match data with
  | .TableHeader _ _ => .ok sess
  | .TableEntry _ cells =>
    .ok { sess with files :=
      { sess.files with online_clips :=
          sess.files.online_clips ++ [⟨cells.getD 0 [], cells.getD 1 []⟩] } }
  | _ => .panicked

/-- `EDLParser::fill_track_listing` (src/src/edl/protools/parser.rs:455-473):
with an open track, the matched field updates it (bad delay numbers panic);
with no open track only a TRACK NAME field may open one — anything else is a
`panic!`. -/
def fill_track_listing (track? : Option EDLTrack) (field : EDLField) (value : List Char) :
    POutcome (Option EDLTrack) :=
  match track? with
  | some track =>
    match field with
    | .TrackName => .ok (some { track with name := value })
    | .TrackComment => .ok (some { track with comment := value })
    | .TrackDelay =>
      match parseU32 (stripSuffixOr value " Samples".toList) with
      | some n => .ok (some { track with delay := n })
      | none => .panicked
    | .TrackState => .ok (some track)
    | _ => .ok (some track)
  | none =>
    if field = .TrackName then .ok (some (EDLTrack.with_name value))
    else .panicked

/-- `impl From<(&[&str; 8], FrameRate)> for EDLEvent`
(src/src/edl/protools_edl.rs:780-797): numeric and timecode cells panic on
conversion failure; the mute cell is read from `state_index =
WIDTHS.len() - 1 = 3` (the source compares the START TIME cell against
"Unmuted" — kept as written). -/
def EDLEvent.from_cells (cells : List (List Char)) (fps : FrameRate) : Option EDLEvent :=
  match parseU32 (cells.getD 0 []) with
  | none => none
  | some channel =>
    match parseU32 (cells.getD 1 []) with
    | none => none
    | some event =>
      match Timecode.from_str (cells.getD 3 []) fps with
      | .ok tin =>
        match Timecode.from_str (cells.getD 4 []) fps with
        | .ok tout =>
          some { channel := channel, event := event, name := cells.getD 2 [],
                 time_in := tin, time_out := tout,
                 state := cells.getD 3 [] = "Unmuted".toList }
        | _ => none
      | _ => none

/-- `EDLParser::fill_track_events` (src/src/edl/protools/parser.rs:475-495):
a data row without an open track is a `panic!`, not a typed error. -/
def fill_track_events (sess : EDLSession) (track? : Option EDLTrack) (data : EDLValue) :
    POutcome (Option EDLTrack) :=
  match data with
  | .TableHeader _ _ => .ok track?
  | .TableEntry _ cells =>
    match track? with
    | some track =>
      match EDLEvent.from_cells cells sess.fps with
      | some ev => .ok (some { track with events := track.events ++ [ev] })
      | none => .panicked
    | none => .panicked
  | _ => .panicked

/-- `EDLParser::fill_marker_listings` (src/src/edl/protools/parser.rs:497-519):
every cell conversion failure is an `expect` panic. -/
def fill_marker_listings (sess : EDLSession) (data : EDLValue) : POutcome EDLSession :=
  match data with
  | .TableHeader _ _ => .ok sess
  | .TableEntry _ cells =>
    match parseU32 (trimChars (cells.getD 0 [])) with
    | none => .panicked
    | some i =>
      match Timecode.from_str (trimChars (cells.getD 1 [])) sess.fps with
      | .ok loc =>
        match parseU32 (trimChars (cells.getD 2 [])) with
        | none => .panicked
        | some tr =>
          match EDLUnit.from_str (trimChars (cells.getD 3 [])) with
          | none => .panicked
          | some u =>
            .ok { sess with markers := sess.markers
              ++ [⟨i, loc, tr, u, trimChars (cells.getD 4 []), trimChars (cells.getD 5 [])⟩] }
      | _ => .panicked
  | _ => .panicked

/-- Map over a successful parsing step. -/
def POutcome.map (f : α → β) : POutcome α → POutcome β
  | .ok a => .ok (f a)
  | .err e => .err e
  | .panicked => .panicked

/-- The per-line loop state of `EDLParser::parse`
(src/src/edl/protools/parser.rs:44-59): the parser struct, the growing
session, and the current track under construction. -/
structure ParseLoop where
  ps : EDLParserState
  session : EDLSession
  current_track : Option EDLTrack
deriving DecidableEq, Repr

/-- The initial loop state of `parse` (src/src/edl/protools/parser.rs:44-59):
defaulted parser with `current_section = Header`, a fresh session, no open
track. -/
def ParseLoop.init : ParseLoop :=
  { ps := { section_flags := 0, file_position := 0, section_position := 0,
            trailing_new_lines := 0, current_section := .Header,
            previous_section := .Ignore, section_ended := false },
    session := EDLSession.new, current_track := none }

/-- The per-section dispatch of the `parse` loop body
(src/src/edl/protools/parser.rs:90-133): runs the matching `parse_edl_*`
extractor and `fill_*` assembler for the decided section `cur`.  Sections
without a branch (PluginsListing) do nothing.  The markers branch receives
the raw, untrimmed line (parser.rs:131); every other branch the trimmed one. -/
def dispatch_section (cur : EDLSection) (p : EDLParserState) (sess : EDLSession)
    (track? : Option EDLTrack) (trimmed line : List Char) :
    POutcome (EDLSession × Option EDLTrack) :=
  if cur = .Header then
    match p.parse_edl_field trimmed with
    | .ok (.Field _ field value) => (fill_session_header sess field value).map (fun s => (s, track?))
    | .ok _ => .ok (sess, track?)
    | .err e => .err e
    | .panicked => .panicked
  else if cur = .OnlineFiles then
    match p.parse_edl_online_file trimmed with
    | .ok v => (fill_online_files sess v).map (fun s => (s, track?))
    | .err e => .err e
    | .panicked => .panicked
  else if cur = .OfflineFiles then
    match p.parse_edl_offline_file trimmed with
    | .ok v => (fill_offline_files sess v).map (fun s => (s, track?))
    | .err e => .err e
    | .panicked => .panicked
  else if cur = .OnlineClips then
    match p.parse_edl_online_clip trimmed with
    | .ok v => (fill_online_clips sess v).map (fun s => (s, track?))
    | .err e => .err e
    | .panicked => .panicked
  else if cur = .TrackListing then
    match p.parse_edl_field trimmed with
    | .ok (.Field _ field value) => (fill_track_listing track? field value).map (fun t => (sess, t))
    | .ok _ => .ok (sess, track?)
    | .err e => .err e
    | .panicked => .panicked
  else if cur = .TrackEvent then
    match p.parse_edl_track_event trimmed with
    | .ok v => (fill_track_events sess track? v).map (fun t => (sess, t))
    | .err e => .err e
    | .panicked => .panicked
  else if cur = .MarkersListing then
    match p.parse_edl_marker_listing line with
    | .ok v => (fill_marker_listings sess v).map (fun s => (s, track?))
    | .err e => .err e
    | .panicked => .panicked
  else .ok (sess, track?)

/-- One iteration of the `while let` loop of `EDLParser::parse`
(src/src/edl/protools/parser.rs:61-141):
1. trim the line, counting a blank line into `trailing_new_lines`;
2. classify via `check_section`, defaulting an undecided line to
   `(Ignore, skip, trailing_new_lines ≥ 2)`;
3. a decided non-Ignore section becomes current (clearing `section_ended`),
   an undecided line sets `section_ended`;
4. on a reset, zero the section-local counters — and, exactly when the
   *already updated* current section is TrackEvent, flush the open track
   into the session's track list and clear the slot;
5. a non-skipped line bumps `section_position` and is dispatched;
6. `file_position` advances.  -/
def process_line (st : ParseLoop) (line : List Char) : POutcome ParseLoop :=
  let trimmed := trimChars line
  let p0 := if trimmed = [] then
      { st.ps with trailing_new_lines := st.ps.trailing_new_lines + 1 }
    else st.ps
  let cres := p0.check_section trimmed
  let d : EDLSection × Bool × Bool :=
    cres.2.getD (.Ignore, true, decide (p0.trailing_new_lines ≥ EDL_SECTION_TERMINATOR_LENGTH))
  let p2 : EDLParserState :=
    if d.1 ≠ .Ignore then { cres.1 with current_section := d.1, section_ended := false }
    else { cres.1 with section_ended := true }
  let reset := d.2.2
  let afterReset : EDLParserState × EDLSession × Option EDLTrack :=
    if reset then
      let p' := { p2 with section_position := 0, trailing_new_lines := 0, section_ended := false }
      if p2.current_section = .TrackEvent then
        (p', { st.session with tracks := st.session.tracks ++ st.current_track.toList }, none)
      else (p', st.session, st.current_track)
    else (p2, st.session, st.current_track)
  let p3 := afterReset.1
  let session1 := afterReset.2.1
  let track1 := afterReset.2.2
  if d.2.1 then
    .ok { ps := { p3 with file_position := p3.file_position + 1 },
          session := session1, current_track := track1 }
  else
    let p4 := { p3 with section_position := p3.section_position + 1 }
    (dispatch_section d.1 p4 session1 track1 trimmed line).map (fun r =>
      { ps := { p4 with file_position := p4.file_position + 1 },
        session := r.1, current_track := r.2 })

/-- Folding `process_line` over the decoded lines. -/
def parse_lines_from (st : ParseLoop) : List (List Char) → POutcome ParseLoop
  | [] => .ok st
  | l :: ls =>
    match process_line st l with
    | .ok st' => parse_lines_from st' ls
    | .err e => .err e
    | .panicked => .panicked

/-- `EDLParser::parse` (src/src/edl/protools/parser.rs:40-144) on a list of
already decoded lines (file opening and byte decoding are external
collaborators): fold the per-line step from the initial state and return the
session.  Note the returned session is whatever has been assembled when the
input ends — no final flush of an open track happens. -/
def EDLParser.parse (lines : List (List Char)) : POutcome EDLSession :=
  (parse_lines_from ParseLoop.init lines).map (fun st => st.session)

/-- Projection: the track list of a successfully parsed session. -/
def POutcome.sessionTracks : POutcome EDLSession → Option (List EDLTrack)
  | .ok s => some s.tracks
  | _ => none

/-! ### EDLTrackEvent table parsing (src/src/edl/protools/session_types.rs) -/

/-- `EDLTrackEvent` (src/src/edl/protools/session_types.rs:139-148): note the
`timestamp` field is a plain `Timecode`, not an optional one. -/
structure EDLTrackEvent where
  channel : Nat
  event : Nat
  name : List Char
  time_in : Timecode
  time_out : Timecode
  timestamp : Timecode
  state : Bool
  flags : Nat
deriving DecidableEq, Repr

/-- The row loop of `EDLTrackEvent::parse_table`
(src/src/edl/protools/session_types.rs:171-208), threading the row index `i`
and the mutable `contains_timestamp` flag; `none` models the `expect` panics
on bad cells.  Row `i = 0` with a valid width only records whether its
second-to-last cell is `TIMESTAMP`; later valid rows become events whose
timestamp is parsed from the second-to-last cell when the flag is set and is
`Timecode::with_fps(default_frame_rate)` otherwise; other rows are skipped. -/
def EDLTrackEvent.parse_table_go (fps : FrameRate) (i : Nat) (contains_timestamp : Bool) :
    List (List Char) → Option (List EDLTrackEvent)
  | [] => some []
  | line :: rest =>
    let parts := splitTab line
    if (parts.length = 8 ∨ parts.length = 7) ∧ i > 0 then
      match (if contains_timestamp then
               match Timecode.from_str (trimChars (parts.getD (parts.length - 2) [])) fps with
               | .ok tc => some tc
               | _ => none
             else some (Timecode.with_fps fps)) with
      | none => none
      | some ts =>
        match parseU32 (trimChars (parts.getD 0 [])) with
        | none => none
        | some channel =>
          match parseU32 (trimChars (parts.getD 1 [])) with
          | none => none
          | some event =>
            match Timecode.from_str (trimChars (parts.getD 3 [])) fps with
            | .ok tin =>
              match Timecode.from_str (trimChars (parts.getD 4 [])) fps with
              | .ok tout =>
                match EDLTrackEvent.parse_table_go fps (i + 1) contains_timestamp rest with
                | none => none
                | some evs =>
                  some ({ channel := channel, event := event,
                          name := trimChars (parts.getD 2 []),
                          time_in := tin, time_out := tout, timestamp := ts,
                          state := trimChars (parts.getD (parts.length - 1) []) = "Muted".toList,
                          flags := 0 } :: evs)
              | _ => none
            | _ => none
    else if (parts.length = 8 ∨ parts.length = 7) ∧ i = 0 then
      EDLTrackEvent.parse_table_go fps (i + 1)
        (trimChars (parts.getD (parts.length - 2) []) = "TIMESTAMP".toList) rest
    else
      EDLTrackEvent.parse_table_go fps (i + 1) contains_timestamp rest

/-- `EDLTrackEvent::parse_table`
(src/src/edl/protools/session_types.rs:165-214): `Some` of the events when at
least one was produced, `None` otherwise; `panicked` when a cell conversion
`expect` fires. -/
def EDLTrackEvent.parse_table (table_data : List (List Char)) (default_frame_rate : FrameRate) :
    POutcome (Option (List EDLTrackEvent)) :=
  match EDLTrackEvent.parse_table_go default_frame_rate 0 false table_data with
  | none => .panicked
  | some evs => .ok (if evs.length > 0 then some evs else none)

/-- Projection: the per-event timestamps of a successful non-empty parse. -/
def timestampsOf : POutcome (Option (List EDLTrackEvent)) → Option (List Timecode)
  | .ok (some evs) => some (evs.map EDLTrackEvent.timestamp)
  | _ => none

/-- An eight-column track-event table header whose seventh cell is
`TIMESTAMP`. -/
def C8_header8 : List Char :=
  "CHANNEL \tEVENT \tCLIP NAME \tSTART TIME \tEND TIME \tDURATION \tTIMESTAMP \tSTATE".toList

/-- A seven-column track-event table header without a TIMESTAMP column. -/
def C8_header7 : List Char :=
  "CHANNEL \tEVENT \tCLIP NAME \tSTART TIME \tEND TIME \tDURATION \tSTATE".toList

/-- An eight-cell data row whose timestamp cell is the zero timecode. -/
def C8_row8zero : List Char :=
  "1\t1\tclip\t00:00:00:00\t00:00:01:00\t00:00:01:00\t00:00:00:00\tUnmuted".toList

/-- An eight-cell data row whose timestamp cell is `00:00:02:00`. -/
def C8_row8 : List Char :=
  "1\t1\tclip\t00:00:00:00\t00:00:01:00\t00:00:01:00\t00:00:02:00\tUnmuted".toList

/-- A seven-cell data row (no timestamp column). -/
def C8_row7 : List Char :=
  "1\t1\tclip\t00:00:00:00\t00:00:01:00\t00:00:01:00\tUnmuted".toList

/-! ### Claim C8 (TIMESTAMP column handling) -/

/-- C8 counterexample: the event type's `timestamp` field is not optional, so
"absent" does not exist — a 7-cell row under a non-TIMESTAMP header gets the
concrete default timecode `with_fps(rate)` as its timestamp, and an 8-cell
row under a TIMESTAMP header whose timestamp cell is zero produces the very
same event list: the two tables are indistinguishable in the result. -/
theorem C8_counterexample :
    timestampsOf (EDLTrackEvent.parse_table [C8_header7, C8_row7] FrameRate.Fps25)
      = some [Timecode.with_fps FrameRate.Fps25]
    ∧ EDLTrackEvent.parse_table [C8_header8, C8_row8zero] FrameRate.Fps25
      = EDLTrackEvent.parse_table [C8_header7, C8_row7] FrameRate.Fps25 := by
  exact ⟨by decide, by decide⟩

/-- C8 (amended): when the table header declares TIMESTAMP as the seventh of
eight cells, each 8-cell data row's event carries the timecode parsed from
that row's seventh cell in its (always-present) timestamp field; when the
header declares no TIMESTAMP column, 7-cell data rows carry the default
`Timecode::with_fps(rate)` (all-zero groups at the table's rate) — absence is
represented only by this default value. -/
theorem C8_timestamp_population (fps : FrameRate) :
    EDLTrackEvent.parse_table [C8_header8, C8_row8] fps
      = POutcome.ok (some [EDLTrackEvent.mk 1 1 ("clip".toList)
          (Timecode.mk [0, 0, 0, 0, 0] fps 0) (Timecode.mk [0, 0, 1, 0, 0] fps 0)
          (Timecode.mk [0, 0, 2, 0, 0] fps 0) false 0])
    ∧ Timecode.from_str ("00:00:02:00".toList) fps
        = FromStrResult.ok (Timecode.mk [0, 0, 2, 0, 0] fps 0)
    ∧ EDLTrackEvent.parse_table [C8_header7, C8_row7] fps
      = POutcome.ok (some [EDLTrackEvent.mk 1 1 ("clip".toList)
          (Timecode.mk [0, 0, 0, 0, 0] fps 0) (Timecode.mk [0, 0, 1, 0, 0] fps 0)
          (Timecode.with_fps fps) false 0]) :=
  ⟨rfl, rfl, rfl⟩

/-! ### Claim C9 (failure propagation) -/

/-- A minimal input whose markers table has a non-numeric id cell. -/
def C9_input : List (List Char) := [
  [], [], [], [], [], [], [], [],
  "M A R K E R S  L I S T I N G".toList,
  "#  \tLOCATION \tTIME REFERENCE \tUNITS \tNAME \tCOMMENTS".toList,
  "x\t00:00:01:00\t48000\tSamples\tMarker 1\tnote".toList]

/-- C9 counterexample: a non-numeric marker id cell does not surface as a
typed error from `parse` — the whole parse aborts through the `expect` panic
in `fill_marker_listings`. -/
theorem C9_counterexample : EDLParser.parse C9_input = POutcome.panicked := by
  decide

/-- C9 (amended): format violations that the `parse_edl_*` extractors detect
(such as an invalid column width) do surface as typed errors propagated by
`?` from `parse`; but conversion failures inside the `fill_*` assemblers —
a track-event data row with no open track, or a non-numeric marker id cell —
abort the process via `panic!`/`expect` instead of returning a typed
error. -/
theorem C9_fill_failures_panic :
    (∀ (sess : EDLSession) (sec : EDLSection) (cells : List (List Char)),
        fill_track_events sess none (EDLValue.TableEntry sec cells) = POutcome.panicked)
    ∧ (∀ (sess : EDLSession) (sec : EDLSection) (cells : List (List Char)),
        parseU32 (trimChars (cells.getD 0 [])) = none →
        fill_marker_listings sess (EDLValue.TableEntry sec cells) = POutcome.panicked)
    ∧ (∀ (s : EDLParserState) (line : List Char),
        is_valid_event_table_column_width (splitTab line).length = false →
        s.parse_edl_track_event line = POutcome.err EDLParseError.TrackEventColumns) := by
  refine ⟨fun sess sec cells => rfl, fun sess sec cells h => ?_, fun s line h => ?_⟩
  · simp only [fill_marker_listings]
    rw [h]
  · simp [EDLParserState.parse_edl_track_event, EDLParserState.parse_edl_table_row, h]

/-- C9 witness: the panic law applied to the concrete non-numeric marker id
cell. -/
theorem C9_fill_failures_panic_witness :
    fill_marker_listings EDLSession.new
        (EDLValue.TableEntry EDLSection.MarkersListing ["x".toList])
      = POutcome.panicked :=
  C9_fill_failures_panic.2.1 EDLSession.new EDLSection.MarkersListing ["x".toList] (by decide)

/-! ### Claim C6 (plugins flag changes the TrackListing header size) -/

/-- C6: the TrackListing header size is 5 exactly when the PluginsListing
flag bit is set and 4 otherwise; the flag is raised by classifying the
P L U G - I N S  L I S T I N G banner; and the silent TrackListing→TrackEvent
switch happens at section position ≥ size, so the same line at position 4 is
classified as a TrackListing field without the flag and stays a TrackListing
field one line longer with it. -/
theorem C6_plugins_flag_shifts_boundary :
    (∀ s : EDLParserState,
        s.get_section_size .TrackListing
          = if s.section_flags &&& EDLPARSER_MASK_SECTION_PLUGINSLISTING
              = EDLPARSER_MASK_SECTION_PLUGINSLISTING then 5 else 4)
    ∧ bannerLookup (EDLSection.section_name .PluginsListing) = some .PluginsListing
    ∧ (∀ s : EDLParserState, s.file_position ≥ EDL_HEADER_LINE_SIZE →
        ((s.check_section (EDLSection.section_name .PluginsListing)).1).section_flags
          = s.section_flags ||| EDLPARSER_MASK_SECTION_PLUGINSLISTING)
    ∧ (∀ (s : EDLParserState) (line : List Char),
        s.file_position ≥ EDL_HEADER_LINE_SIZE → line ≠ [] →
        bannerLookup line = none → s.section_ended = false →
        s.current_section = .TrackListing →
        (s.check_section line).2
          = some (if s.section_position ≥ s.get_section_size .TrackListing
                  then EDLSection.TrackEvent else .TrackListing, false, false))
    ∧ (∀ (s : EDLParserState) (line : List Char),
        s.file_position ≥ EDL_HEADER_LINE_SIZE → line ≠ [] →
        bannerLookup line = none → s.section_ended = false →
        s.current_section = .TrackListing → s.section_position = 4 →
        ((s.section_flags &&& EDLPARSER_MASK_SECTION_PLUGINSLISTING
            = EDLPARSER_MASK_SECTION_PLUGINSLISTING →
          (s.check_section line).2 = some (.TrackListing, false, false))
        ∧ (s.section_flags &&& EDLPARSER_MASK_SECTION_PLUGINSLISTING ≠
            EDLPARSER_MASK_SECTION_PLUGINSLISTING →
          (s.check_section line).2 = some (.TrackEvent, false, false)))) := by
  have hmain : ∀ (s : EDLParserState) (line : List Char),
      s.file_position ≥ EDL_HEADER_LINE_SIZE → line ≠ [] →
      bannerLookup line = none → s.section_ended = false →
      s.current_section = .TrackListing →
      (s.check_section line).2
        = some (if s.section_position ≥ s.get_section_size .TrackListing
                then EDLSection.TrackEvent else .TrackListing, false, false) := by
    intro s line h1 h2 h3 h4 h5
    have h1' : ¬ (s.file_position < EDL_HEADER_LINE_SIZE) := by omega
    unfold EDLParserState.check_section
    rw [if_neg h2, if_neg h1', h3]
    simp only [h4, h5]
    simp only [Bool.false_eq_true, if_false, reduceCtorEq, if_true]
    split <;> simp
  refine ⟨?_, by decide, ?_, hmain, ?_⟩
  · intro s
    simp [EDLParserState.get_section_size]
  · intro s h
    have h' : ¬ (s.file_position < EDL_HEADER_LINE_SIZE) := by omega
    unfold EDLParserState.check_section
    rw [if_neg (by decide : ¬ (EDLSection.section_name .PluginsListing = ([] : List Char))),
      if_neg h',
      show bannerLookup (EDLSection.section_name .PluginsListing) = some .PluginsListing
        from by decide]
    simp [EDLParserState.enable_section]
  · intro s line h1 h2 h3 h4 h5 hpos
    constructor
    · intro hf
      rw [hmain s line h1 h2 h3 h4 h5]
      simp [EDLParserState.get_section_size, hf, hpos]
    · intro hf
      rw [hmain s line h1 h2 h3 h4 h5]
      simp [EDLParserState.get_section_size, hf, hpos]

/-- C6 witness: the boundary difference at section position 4 on a concrete
field line, with and without the plugins flag. -/
theorem C6_plugins_flag_shifts_boundary_witness :
    ((EDLParserState.mk 1 8 4 0 .TrackListing .Ignore false).check_section
        ("TRACK NAME:\tA".toList)).2 = some (.TrackListing, false, false)
    ∧ ((EDLParserState.mk 0 8 4 0 .TrackListing .Ignore false).check_section
        ("TRACK NAME:\tA".toList)).2 = some (.TrackEvent, false, false) :=
  ⟨(C6_plugins_flag_shifts_boundary.2.2.2.2 (EDLParserState.mk 1 8 4 0 .TrackListing .Ignore false)
      ("TRACK NAME:\tA".toList) (by decide) (by decide) (by decide) rfl rfl rfl).1 (by decide),
   (C6_plugins_flag_shifts_boundary.2.2.2.2 (EDLParserState.mk 0 8 4 0 .TrackListing .Ignore false)
      ("TRACK NAME:\tA".toList) (by decide) (by decide) (by decide) rfl rfl rfl).2 (by decide)⟩

/-! ### Claim C1 (track completion) -/

/-- A session whose input ends immediately after a track's event rows: eight
header-budget lines, the TRACK LISTING banner, four track header fields, the
event-table header row and one event data row — then end of input. -/
def C1_input : List (List Char) := [
  [], [], [], [], [], [], [], [],
  "T R A C K  L I S T I N G".toList,
  "TRACK NAME:\tAudio 1".toList,
  "COMMENTS:\tc1".toList,
  "USER DELAY:\t0 Samples".toList,
  "STATE:\tSolo".toList,
  "CHANNEL \tEVENT \tCLIP NAME \tSTART TIME \tEND TIME \tDURATION \tSTATE".toList,
  "1\t1\tAudio\t00:00:00:00\t00:00:01:00\t00:00:01:00\tUnmuted".toList]

/-- The same input followed by the two-blank-line section terminator. -/
def C1_input_terminated : List (List Char) := C1_input ++ [[], []]

/-- C1 counterexample: the input ends immediately after the track's event
rows, yet the returned session's track list is empty — the open track is
discarded at end of input, not appended as the claim states.  (The same
 input followed by the two-blank-line terminator does yield the track, which
is the only flush path.) -/
theorem C1_counterexample :
    POutcome.sessionTracks (EDLParser.parse C1_input) = some [] := by
  decide

/-- A successful `fill_track_listing` on an open track never clears the
slot. -/
theorem fill_track_listing_keeps_track (t : EDLTrack) (f : EDLField) (v : List Char)
    (r : Option EDLTrack) (h : fill_track_listing (some t) f v = POutcome.ok r) :
    r.isSome := by
  cases f <;> simp only [fill_track_listing] at h
  case TrackDelay =>
    cases hp : parseU32 (stripSuffixOr v " Samples".toList) with
    | none => rw [hp] at h; exact absurd h (by simp)
    | some n =>
      rw [hp] at h
      simp only [POutcome.ok.injEq] at h
      subst h
      rfl
  all_goals simp only [POutcome.ok.injEq] at h
  all_goals subst h
  all_goals rfl

/-- Classifier step for the two-cell next-track line: in TrackEvent, a
non-banner line with exactly two tab cells decides `(TrackListing, no-skip,
reset)`. -/
theorem check_section_twocell (s : EDLParserState) (l : List Char)
    (hcur : s.current_section = .TrackEvent) (hse : s.section_ended = false)
    (hfp : s.file_position ≥ EDL_HEADER_LINE_SIZE) (hne : l ≠ [])
    (hban : bannerLookup l = none)
    (hcols : (splitTab l).length = EDL_FIELD_PARTS_LENGTH) :
    s.check_section l = (s, some (.TrackListing, false, true)) := by
  have hfp' : ¬ (s.file_position < EDL_HEADER_LINE_SIZE) := by omega
  unfold EDLParserState.check_section
  rw [if_neg hne, if_neg hfp', hban]
  simp only [hse, hcur]
  simp only [Bool.false_eq_true, if_false, reduceCtorEq, if_true]
  simp [hcols]

/-- The classifier makes no decision on a blank line. -/
theorem check_section_blank (s : EDLParserState) : s.check_section [] = (s, none) := by
  unfold EDLParserState.check_section
  rw [if_pos rfl]

/-- On the two-cell next-track line, `process_line` reduces to the
TrackListing dispatch on a state whose current section has *already* been
rebound to TrackListing — so the flush test `current_section = TrackEvent`
fails and neither the track list nor the slot is touched by the reset. -/
theorem process_line_twocell_eq (st : ParseLoop) (line : List Char)
    (hcur : st.ps.current_section = .TrackEvent) (hse : st.ps.section_ended = false)
    (hfp : st.ps.file_position ≥ EDL_HEADER_LINE_SIZE)
    (htne : trimChars line ≠ []) (hban : bannerLookup (trimChars line) = none)
    (hcols : (splitTab (trimChars line)).length = EDL_FIELD_PARTS_LENGTH) :
    process_line st line
      = (dispatch_section .TrackListing
            { st.ps with
              current_section := .TrackListing
              section_ended := false
              section_position := 1
              trailing_new_lines := 0 }
            st.session st.current_track (trimChars line) line).map
          (fun r =>
            { ps := { st.ps with
                      current_section := .TrackListing
                      section_ended := false
                      section_position := 1
                      trailing_new_lines := 0
                      file_position := st.ps.file_position + 1 }
              session := r.1
              current_track := r.2 }) := by
  have hcs := check_section_twocell st.ps (trimChars line) hcur hse hfp htne hban hcols
  simp only [process_line, if_neg htne, hcs, Option.getD_some, ne_eq, reduceCtorEq,
    not_false_eq_true, if_true, if_false, ite_true, ite_false]

/-- On a blank line that completes the two-blank terminator while the current
section is TrackEvent, `process_line` flushes the open track into the track
list and clears the slot. -/
theorem process_line_blank_flush_eq (st : ParseLoop) (line : List Char)
    (hcur : st.ps.current_section = .TrackEvent)
    (htr : trimChars line = [])
    (hterm : st.ps.trailing_new_lines + 1 ≥ EDL_SECTION_TERMINATOR_LENGTH) :
    process_line st line
      = POutcome.ok
          { ps := { st.ps with
                    trailing_new_lines := 0
                    section_position := 0
                    section_ended := false
                    file_position := st.ps.file_position + 1 }
            session := { st.session with
                         tracks := st.session.tracks ++ st.current_track.toList }
            current_track := none } := by
  have hd : decide (st.ps.trailing_new_lines + 1 ≥ EDL_SECTION_TERMINATOR_LENGTH) = true :=
    decide_eq_true hterm
  simp only [process_line, htr, check_section_blank, Option.getD_none, hd, ne_eq,
    reduceCtorEq, not_false_eq_true, not_true_eq_false, if_true, if_false, ite_true,
    ite_false, hcur]

/-- Inversion for `POutcome.map` returning `ok`. -/
theorem POutcome.map_eq_ok {α β : Type} (f : α → β) (x : POutcome α) (b : β)
    (h : POutcome.map f x = POutcome.ok b) : ∃ a, x = POutcome.ok a ∧ b = f a := by
  cases x with
  | ok a =>
    refine ⟨a, rfl, ?_⟩
    simp only [POutcome.map, POutcome.ok.injEq] at h
    exact h.symm
  | err e => exact absurd h (by simp [POutcome.map])
  | panicked => exact absurd h (by simp [POutcome.map])

/-- A successful TrackListing dispatch leaves the session untouched and never
clears an open track slot. -/
theorem dispatch_trackListing_result (p : EDLParserState) (sess : EDLSession)
    (track? : Option EDLTrack) (trimmed line : List Char) (r : EDLSession × Option EDLTrack)
    (h : dispatch_section .TrackListing p sess track? trimmed line = POutcome.ok r) :
    r.1 = sess ∧ (track?.isSome → r.2.isSome) := by
  simp only [dispatch_section, reduceCtorEq, if_false, ite_false, if_true, ite_true] at h
  cases hpe : p.parse_edl_field trimmed with
  | ok v =>
    rw [hpe] at h
    cases v with
    | Field sec f val =>
      dsimp only at h
      cases hft : fill_track_listing track? f val with
      | ok t2 =>
        rw [hft] at h
        simp only [POutcome.map, POutcome.ok.injEq] at h
        subst h
        refine ⟨rfl, ?_⟩
        intro hsome
        cases htk : track? with
        | none => rw [htk] at hsome; exact absurd hsome (by simp)
        | some t =>
          rw [htk] at hft
          exact fill_track_listing_keeps_track t f val t2 hft
      | err e => rw [hft] at h; exact absurd h (by simp [POutcome.map])
      | panicked => rw [hft] at h; exact absurd h (by simp [POutcome.map])
    | TableHeader sec cells =>
      dsimp only at h
      simp only [POutcome.ok.injEq] at h
      subst h
      exact ⟨rfl, fun hs => hs⟩
    | TableEntry sec cells =>
      dsimp only at h
      simp only [POutcome.ok.injEq] at h
      subst h
      exact ⟨rfl, fun hs => hs⟩
  | err e =>
    rw [hpe] at h
    dsimp only at h
    exact absurd h (by simp)
  | panicked =>
    rw [hpe] at h
    dsimp only at h
    exact absurd h (by simp)

/-- C1 (amended): the parser appends the track under construction only when a
reset fires while the (already rebound) current section is still TrackEvent —
in practice the two-consecutive-blank-line terminator.  On the 2-cell
next-track transition the section has already switched to TrackListing before
the flush test, so the track list is unchanged and the open slot is reused,
not cleared; and at end of input the open track is discarded (only the
terminated variant of the C1 input yields its track). -/
theorem C1_track_flush_discipline :
    (∀ (st : ParseLoop) (line : List Char) (st' : ParseLoop),
        st.ps.current_section = .TrackEvent → st.ps.section_ended = false →
        st.ps.file_position ≥ EDL_HEADER_LINE_SIZE →
        trimChars line ≠ [] → bannerLookup (trimChars line) = none →
        (splitTab (trimChars line)).length = EDL_FIELD_PARTS_LENGTH →
        process_line st line = POutcome.ok st' →
        st'.session.tracks = st.session.tracks
        ∧ st'.ps.current_section = .TrackListing
        ∧ (st.current_track.isSome → st'.current_track.isSome))
    ∧ (∀ (st : ParseLoop) (line : List Char) (st' : ParseLoop),
        st.ps.current_section = .TrackEvent → trimChars line = [] →
        st.ps.trailing_new_lines + 1 ≥ EDL_SECTION_TERMINATOR_LENGTH →
        process_line st line = POutcome.ok st' →
        st'.session.tracks = st.session.tracks ++ st.current_track.toList
        ∧ st'.current_track = none)
    ∧ (POutcome.sessionTracks (EDLParser.parse C1_input_terminated)).map List.length
        = some 1 := by
  refine ⟨?_, ?_, by decide⟩
  · intro st line st' hcur hse hfp htne hban hcols heq
    rw [process_line_twocell_eq st line hcur hse hfp htne hban hcols] at heq
    obtain ⟨r, hr, hst⟩ := POutcome.map_eq_ok _ _ _ heq
    obtain ⟨hs, hi⟩ := dispatch_trackListing_result _ _ _ _ _ _ hr
    subst hst
    exact ⟨by rw [hs], rfl, hi⟩
  · intro st line st' hcur htr hterm heq
    rw [process_line_blank_flush_eq st line hcur htr hterm] at heq
    simp only [POutcome.ok.injEq] at heq
    subst heq
    exact ⟨rfl, rfl⟩

/-- C1 witness: the flush discipline applied to a blank line completing the
terminator with an open track. -/
theorem C1_track_flush_discipline_witness :
    ({ ps := EDLParserState.mk 0 10 0 0 .TrackEvent .Ignore false
       session := { EDLSession.new with tracks := [EDLTrack.with_name ("A".toList)] }
       current_track := none } : ParseLoop).session.tracks
      = ([] : List EDLTrack) ++ (some (EDLTrack.with_name ("A".toList))).toList :=
  (C1_track_flush_discipline.2.1
    { ps := EDLParserState.mk 0 9 6 1 .TrackEvent .Ignore false
      session := EDLSession.new
      current_track := some (EDLTrack.with_name ("A".toList)) }
    [] _ rfl (by decide) (by decide) (by decide)).1
